import Mathlib

/-!
Wallet service: validation, ledger store and transaction coordinator.

A shallow embedding of `wallet/walletcore/wallet.go`, `wallet/walletcore/database.go`
and the handlers of `wallet/main.go`.

* Go `int64` is `I64`: an integer in `[-2^63, 2^63)`, with wrapping `+` and `-`.
* `uuid.UUID` is the numeric value of its 128 bits, `uuid.Nil` is `0`.
* The PostgreSQL database is a pair of tables (lists of rows). A `*sql.Tx` is a
  working copy of the tables: `Commit` installs it, `Rollback` discards it.
* Everything the handler reads from outside (clock, fresh transaction id,
  failures of the database connection) is collected in `Env`.
-/

namespace WalletService

/-! ## Machine integers -/

/-- Go `int64`: an integer in the signed 64-bit range. -/
structure I64 where
  val : Int
  inRange : -9223372036854775808 ≤ val ∧ val < 9223372036854775808
deriving DecidableEq

/-- Reduction of an integer into the signed 64-bit range (two's complement wrap-around). -/
def I64.wrap (x : Int) : I64 :=
  ⟨(x + 9223372036854775808) % 18446744073709551616 - 9223372036854775808, by omega⟩

instance (n : Nat) : OfNat I64 n := ⟨I64.wrap n⟩

/-- Go `a + b` on `int64`. -/
def I64.add (a b : I64) : I64 := I64.wrap (a.val + b.val)

/-- Go `a - b` on `int64`. -/
def I64.sub (a b : I64) : I64 := I64.wrap (a.val - b.val)

/-! ## wallet.go -/

/-- Go `uuid.UUID`, by the numeric value of its 128 bits. -/
abbrev UUID := Nat

/-- Go `uuid.Nil`. -/
def uuidNil : UUID := 0

/-- Go `time.Time`, as a number of clock ticks. -/
abbrev Time := Nat

/-- Go `type OperationType string`. -/
abbrev OperationType := String

/-- Constant `Deposit OperationType = "DEPOSIT"`. -/
def Deposit : OperationType := "DEPOSIT"

/-- Constant `Withdraw OperationType = "WITHDRAW"`. -/
def Withdraw : OperationType := "WITHDRAW"

/-- Go `type Wallet struct`; also a row of table `wallets`. -/
structure Wallet where
  ID : UUID
  Balance : I64
  CreatedAt : Time
  UpdatedAt : Time
deriving DecidableEq

/-- Go `type Transaction struct`; also a row of table `transactions`. -/
structure Transaction where
  ID : UUID
  WalletID : UUID
  OpType : OperationType
  Amount : I64
  Timestamp : Time
deriving DecidableEq

/-- Go `type WalletRequest struct`, after the JSON body has been decoded. -/
structure WalletRequest where
  WalletID : UUID
  OperationType : OperationType
  Amount : I64
deriving DecidableEq

/-- Go `type WalletResponse struct`. -/
structure WalletResponse where
  WalletID : UUID
  Balance : I64
deriving DecidableEq

/-- The three error values `WalletRequest.Validate` can return, one per `return` site. -/
inductive ValidationError where
  | emptyWalletID
  | nonPositiveAmount
  | invalidOperationType (opType : OperationType)
deriving DecidableEq

/-- Text of the error (`err.Error()`). -/
def ValidationError.Error : ValidationError → String
  | .emptyWalletID => "walletId cannot be empty"
  | .nonPositiveAmount => "amount must be positive"
  | .invalidOperationType t =>
      "invalid operation type: " ++ t ++ ", must be DEPOSIT or WITHDRAW"

/-- Go `func (r *WalletRequest) Validate() error`; `none` is the `nil` error. -/
def WalletRequest.Validate (r : WalletRequest) : Option ValidationError :=
  if r.WalletID = uuidNil then
    some .emptyWalletID
  else if r.Amount.val ≤ 0 then
    some .nonPositiveAmount
  else if r.OperationType ≠ Deposit ∧ r.OperationType ≠ Withdraw then
    some (.invalidOperationType r.OperationType)
  else
    none

/-! ## database.go -/

/-- The two tables created by `InitSchema`. -/
structure DB where
  wallets : List Wallet
  transactions : List Transaction
deriving DecidableEq

/-- The database right after `InitSchema` on a fresh server (or after `clearDatabase`). -/
def DB.empty : DB := ⟨[], []⟩

/-- What one run of the handler reads from outside the request and the tables. -/
structure Env where
  /-- clock read by `time.Now()` in `CreateWallet` -/
  createTime : Time
  /-- clock read by `NOW()` in `UpdateWalletBalance` -/
  updateTime : Time
  /-- clock read by `time.Now()` in `AddTransactionRecord` -/
  recordTime : Time
  /-- value of `uuid.New()` in `AddTransactionRecord` -/
  transactionID : UUID
  /-- whether `DB.Begin()` fails -/
  beginFails : Bool
  /-- whether the `SELECT ... FOR UPDATE` of `GetWallet` fails with an error other than
  `sql.ErrNoRows` -/
  selectFails : Bool
  /-- whether the `INSERT INTO wallets` of `CreateWallet` fails in the connection -/
  createFails : Bool
  /-- whether the `UPDATE wallets` of `UpdateWalletBalance` fails -/
  updateFails : Bool
  /-- whether the `INSERT INTO transactions` of `AddTransactionRecord` fails in the
  connection -/
  insertFails : Bool
  /-- whether `tx.Commit()` fails -/
  commitFails : Bool
deriving DecidableEq

/-- Errors of the `database/sql` layer, as far as the handlers tell them apart. -/
inductive SQLError where
  | ErrNoRows
  | other
deriving DecidableEq

/-- Row of `wallets` with the given primary key, as `SELECT ... WHERE id = $1` finds it. -/
def DB.findWallet (db : DB) (walletID : UUID) : Option Wallet :=
  db.wallets.find? (fun w => w.ID = walletID)

/-- Go `DBService.GetWallet(walletID, tx)` with a non-nil `tx`, run on the tables `tx` sees. -/
def GetWallet (env : Env) (tx : DB) (walletID : UUID) : Except SQLError Wallet :=
  if env.selectFails then
    .error .other
  else
    match tx.findWallet walletID with
    | some w => .ok w
    | none => .error .ErrNoRows

/-- Go `DBService.CreateWallet(tx, walletID, initialBalance)`: the returned wallet and the
tables as `tx` sees them afterwards. The insert fails on a duplicate primary key. -/
def CreateWallet (env : Env) (tx : DB) (walletID : UUID) (initialBalance : I64) :
    Except SQLError (Wallet × DB) :=
  let w : Wallet :=
    { ID := walletID, Balance := initialBalance,
      CreatedAt := env.createTime, UpdatedAt := env.createTime }
  if env.createFails ∨ (tx.findWallet walletID).isSome then
    .error .other
  else
    .ok (w, { tx with wallets := tx.wallets ++ [w] })

/-- Effect of `UPDATE wallets SET balance = $1, updated_at = NOW() WHERE id = $2` on one
row. -/
def updateRow (env : Env) (walletID : UUID) (newBalance : I64) (w : Wallet) : Wallet :=
  if w.ID = walletID then
    { w with Balance := newBalance, UpdatedAt := env.updateTime }
  else w

/-- Go `DBService.UpdateWalletBalance(tx, walletID, newBalance)`. -/
def UpdateWalletBalance (env : Env) (tx : DB) (walletID : UUID) (newBalance : I64) :
    Except SQLError DB :=
  if env.updateFails then
    .error .other
  else
    .ok { tx with wallets := tx.wallets.map (updateRow env walletID newBalance) }

/-- Go `DBService.AddTransactionRecord(tx, walletID, opType, amount)`. The insert fails on a
duplicate primary key, when `wallet_id` references no row of `wallets` and when `opType`
does not fit the column `operation_type VARCHAR(10)`. -/
def AddTransactionRecord (env : Env) (tx : DB) (walletID : UUID) (opType : OperationType)
    (amount : I64) : Except SQLError DB :=
  let t : Transaction :=
    { ID := env.transactionID, WalletID := walletID, OpType := opType,
      Amount := amount, Timestamp := env.recordTime }
  if env.insertFails ∨ tx.transactions.any (fun u => u.ID = env.transactionID)
      ∨ (tx.findWallet walletID).isNone ∨ 10 < opType.length then
    .error .other
  else
    .ok { tx with transactions := tx.transactions ++ [t] }

/-- Go `DBService.GetWalletBalanceSimple(walletID)`, run on the committed tables;
`selectFails` says that the `SELECT` fails with an error other than `sql.ErrNoRows`. -/
def GetWalletBalanceSimple (selectFails : Bool) (db : DB) (walletID : UUID) :
    Except SQLError I64 :=
  if selectFails then
    .error .other
  else
    match db.findWallet walletID with
    | some w => .ok w.Balance
    | none => .error .ErrNoRows

/-! ## main.go -/

/-- What a handler writes to the `http.ResponseWriter`. -/
inductive Response where
  /-- the body written by `json.NewEncoder(w).Encode(response)`, with the implicit
  status 200 -/
  | json (body : WalletResponse)
  /-- the arguments `msg` and `code` of `http.Error(w, msg, code)` -/
  | error (msg : String) (code : Nat)
deriving DecidableEq

/-- HTTP status code of a response. -/
def Response.status : Response → Nat
  | .json _ => 200
  | .error _ code => code

/-- Go `http.StatusBadRequest`. -/
def StatusBadRequest : Nat := 400

/-- Go `http.StatusNotFound`. -/
def StatusNotFound : Nat := 404

/-- Go `http.StatusInternalServerError`. -/
def StatusInternalServerError : Nat := 500

/-- Go `dbService.DB.Begin()`: the new transaction starts from the committed tables. -/
def Begin (env : Env) (db : DB) : Except SQLError DB :=
  if env.beginFails then .error .other else .ok db

/-- Go `tx.Commit()`: the committed tables after the call, or the error. -/
def Commit (env : Env) (tx : DB) : Except SQLError DB :=
  if env.commitFails then .error .other else .ok tx

/-- The `switch req.OperationType` of `handleWalletOperation`: the new balance, or `none`
on the `Insufficient balance` return. -/
def applyOperation (balance : I64) (req : WalletRequest) : Option I64 :=
  if req.OperationType = Deposit then
    some (balance.add req.Amount)
  else if req.OperationType = Withdraw then
    if balance.val < req.Amount.val then none
    else some (balance.sub req.Amount)
  else
    some balance

/-- Steps of `handleWalletOperation` from the `switch` on, inside transaction `tx`, for the
wallet `wlt` read or created before. Returns the response and the committed tables. Every
`return` before a successful `Commit` runs the deferred `tx.Rollback()`, which leaves the
committed tables `db` as they were. -/
def applyAndCommit (env : Env) (db tx : DB) (wlt : Wallet) (req : WalletRequest) :
    Response × DB :=
  match applyOperation wlt.Balance req with
  | none => (.error "Insufficient balance" StatusBadRequest, db)
  | some newBalance =>
    match UpdateWalletBalance env tx wlt.ID newBalance with
    | .error _ => (.error "Internal server error" StatusInternalServerError, db)
    | .ok tx1 =>
      match AddTransactionRecord env tx1 wlt.ID req.OperationType req.Amount with
      | .error _ => (.error "Internal server error" StatusInternalServerError, db)
      | .ok tx2 =>
        match Commit env tx2 with
        | .error _ => (.error "Internal server error" StatusInternalServerError, db)
        | .ok db1 => (.json { WalletID := wlt.ID, Balance := newBalance }, db1)

/-- Go `handleWalletOperation(dbService)` applied to a decoded request: the response and the
committed tables after the call. -/
def handleWalletOperation (env : Env) (db : DB) (req : WalletRequest) : Response × DB :=
  match req.Validate with
  | some err => (.error ("Validation error: " ++ err.Error) StatusBadRequest, db)
  | none =>
    match Begin env db with
    | .error _ => (.error "Internal server error" StatusInternalServerError, db)
    | .ok tx =>
      match GetWallet env tx req.WalletID with
      | .ok wlt => applyAndCommit env db tx wlt req
      | .error .ErrNoRows =>
        if req.OperationType = Withdraw then
          (.error "Wallet not found for withdrawal operation" StatusNotFound, db)
        else
          match CreateWallet env tx req.WalletID 0 with
          | .error _ => (.error "Internal server error" StatusInternalServerError, db)
          | .ok (wlt, tx1) => applyAndCommit env db tx1 wlt req
      | .error .other => (.error "Internal server error" StatusInternalServerError, db)

/-- Go `handleGetWalletBalance(dbService)` applied to a parsed wallet identifier. -/
def handleGetWalletBalance (selectFails : Bool) (db : DB) (walletID : UUID) : Response :=
  match GetWalletBalanceSimple selectFails db walletID with
  | .ok balance => .json { WalletID := walletID, Balance := balance }
  | .error .ErrNoRows => .error "Wallet not found" StatusNotFound
  | .error .other => .error "Internal server error" StatusInternalServerError

/-- Audit trail of a wallet: its rows of table `transactions`, in insertion order. -/
def DB.auditTrail (db : DB) (walletID : UUID) : List Transaction :=
  db.transactions.filter (fun t => t.WalletID = walletID)

/-- Committed tables after a sequence of requests served one after another. -/
def runRequests (db : DB) : List (Env × WalletRequest) → DB
  | [] => db
  | (env, req) :: rest => runRequests (handleWalletOperation env db req).2 rest

/-- An environment without failures of the database connection. -/
def quietEnv (transactionID : UUID) : Env :=
  { createTime := 0, updateTime := 0, recordTime := 0, transactionID := transactionID,
    beginFails := false, selectFails := false, createFails := false,
    updateFails := false, insertFails := false, commitFails := false }

/-- No operation of the store fails during this run of the handler on tables `db`: the
connection works at every step and `uuid.New()` returns an identifier that is not yet a
primary key of `transactions`. -/
def Env.NoStoreFailure (env : Env) (db : DB) : Prop :=
  env.beginFails = false ∧ env.selectFails = false ∧ env.createFails = false ∧
  env.updateFails = false ∧ env.insertFails = false ∧ env.commitFails = false ∧
  ∀ t ∈ db.transactions, t.ID ≠ env.transactionID

instance (env : Env) (db : DB) : Decidable (env.NoStoreFailure db) := by
  unfold Env.NoStoreFailure; infer_instance

/-- The constraints of the schema of `InitSchema`: both primary keys are unique and every
`transactions.wallet_id` references a row of `wallets`. -/
def DB.Consistent (db : DB) : Prop :=
  (db.wallets.map (fun w => w.ID)).Nodup ∧
  (db.transactions.map (fun t => t.ID)).Nodup ∧
  ∀ t ∈ db.transactions, (db.findWallet t.WalletID).isSome = true

instance (db : DB) : Decidable db.Consistent := by
  unfold DB.Consistent; infer_instance

/-! ## Decoding of the request body -/

/-- A JSON value as far as the decoder of `WalletRequest` tells values apart. -/
inductive JSONValue where
  /-- the literal `null` -/
  | null
  /-- a JSON string -/
  | str (s : String)
  /-- a JSON number written as an integer literal -/
  | num (n : Int)
  /-- anything else: a boolean, an array, an object, a number with fraction or exponent -/
  | other
deriving DecidableEq

/-- A JSON object: its members in the order of the text. -/
abbrev JSONObject := List (String × JSONValue)

/-- Case folding of a member name. The three tags of `WalletRequest` are ASCII without `k`
and `s`, so a name matches one of them under the folding of `encoding/json` exactly when
both agree up to the case of ASCII letters. -/
def foldName (s : String) : List Char := s.data.map Char.toLower

/-- Conversion of an integer literal to `int64`, `none` when out of range. -/
def I64.ofInt? (n : Int) : Option I64 :=
  if h : -9223372036854775808 ≤ n ∧ n < 9223372036854775808 then some ⟨n, h⟩ else none

/-- The zero value `var req walletcore.WalletRequest`. -/
def WalletRequest.zero : WalletRequest :=
  { WalletID := uuidNil, OperationType := "", Amount := 0 }

/-- One member of the JSON object decoded into the struct, by the tags of `WalletRequest`
(`valletId`, `operationType`, `amount`). The flag records that the decoder saved an error.
A member whose name matches no tag is skipped; `null` leaves the field as it is;
`parseUUID` is `uuid.UUID.UnmarshalText`. -/
def decodeMember (parseUUID : String → Option UUID) (acc : WalletRequest × Bool)
    (member : String × JSONValue) : WalletRequest × Bool :=
  if foldName member.1 = foldName "valletId" then
    match member.2 with
    | .null => acc
    | .str s =>
      match parseUUID s with
      | some u => ({ acc.1 with WalletID := u }, acc.2)
      | none => (acc.1, true)
    | _ => (acc.1, true)
  else if foldName member.1 = foldName "operationType" then
    match member.2 with
    | .null => acc
    | .str s => ({ acc.1 with OperationType := s }, acc.2)
    | _ => (acc.1, true)
  else if foldName member.1 = foldName "amount" then
    match member.2 with
    | .null => acc
    | .num n =>
      match I64.ofInt? n with
      | some a => ({ acc.1 with Amount := a }, acc.2)
      | none => (acc.1, true)
    | _ => (acc.1, true)
  else
    acc

/-- Go `json.NewDecoder(r.Body).Decode(&req)` on a body that is a JSON object; `none` when
the decoder returns an error. -/
def decodeWalletRequest (parseUUID : String → Option UUID) (body : JSONObject) :
    Option WalletRequest :=
  let result := body.foldl (decodeMember parseUUID) (WalletRequest.zero, false)
  if result.2 then none else some result.1

/-- Go `handleWalletOperation(dbService)` applied to a body that is a JSON object;
`errorText` is the text of the error of the decoder. -/
def handleWalletOperationBody (parseUUID : String → Option UUID) (errorText : String)
    (env : Env) (db : DB) (body : JSONObject) : Response × DB :=
  match decodeWalletRequest parseUUID body with
  | none => (.error ("Invalid request body: " ++ errorText) StatusBadRequest, db)
  | some req => handleWalletOperation env db req

/-- The request body `{"walletId": id, "operationType": "DEPOSIT", "amount": amount}` of the
specification. -/
def specBody (id : String) (amount : Int) : JSONObject :=
  [("walletId", .str id), ("operationType", .str "DEPOSIT"), ("amount", .num amount)]

/-- The request body `{"valletId": id, "operationType": "DEPOSIT", "amount": amount}`, as
the tags of `WalletRequest` name its members. -/
def taggedBody (id : String) (amount : Int) : JSONObject :=
  [("valletId", .str id), ("operationType", .str "DEPOSIT"), ("amount", .num amount)]

/-- A text-to-UUID conversion that knows one identifier, for the examples. -/
def parseSeven (s : String) : Option UUID :=
  if s = "00000000-0000-0000-0000-000000000007" then some 7 else none

/-! ## Notions used in the statements -/

/-- The committed tables after a request that went through: the balance of the wallet is
rewritten and one audit row is appended. -/
def committedTables (env : Env) (tx : DB) (walletID : UUID) (newBalance : I64)
    (req : WalletRequest) : DB :=
  { wallets := tx.wallets.map (updateRow env walletID newBalance),
    transactions := tx.transactions ++
      [{ ID := env.transactionID, WalletID := walletID, OpType := req.OperationType,
         Amount := req.Amount, Timestamp := env.recordTime }] }

/-- The wallet row `CreateWallet` inserts for the handler: balance `0`, both timestamps the
creation time. -/
def newWallet (env : Env) (walletID : UUID) : Wallet :=
  { ID := walletID, Balance := 0, CreatedAt := env.createTime, UpdatedAt := env.createTime }

/-- Sum of the Deposit amounts minus the sum of the Withdraw amounts of an audit trail. -/
def ledgerSum (trail : List Transaction) : Int :=
  ((trail.filter (fun t => t.OpType = Deposit)).map (fun t => t.Amount.val)).sum
    - ((trail.filter (fun t => t.OpType = Withdraw)).map (fun t => t.Amount.val)).sum

/-- Every committed balance is non-negative. -/
def DB.NonNegative (db : DB) : Prop := ∀ w ∈ db.wallets, 0 ≤ w.Balance.val

instance (db : DB) : Decidable db.NonNegative := by
  unfold DB.NonNegative; infer_instance

/-- Every committed balance is the sum over the audit trail of its wallet, reduced to 64
bits. -/
def DB.LedgerMod (db : DB) : Prop :=
  ∀ w ∈ db.wallets, w.Balance = I64.wrap (ledgerSum (db.auditTrail w.ID))

/-- The row `AddTransactionRecord` inserts for a request. -/
def auditRecord (env : Env) (req : WalletRequest) : Transaction :=
  { ID := env.transactionID, WalletID := req.WalletID, OpType := req.OperationType,
    Amount := req.Amount, Timestamp := env.recordTime }

/-- Committed balance of a wallet, `none` when the wallet does not exist. -/
def DB.balanceOf (db : DB) (walletID : UUID) : Option I64 :=
  (db.findWallet walletID).map (fun w => w.Balance)

/-- Sum of the amounts of the Deposit requests of a list. -/
def depositTotal (reqs : List WalletRequest) : Int :=
  ((reqs.filter (fun r => r.OperationType = Deposit)).map (fun r => r.Amount.val)).sum

/-- Sum of the amounts of the Withdraw requests of a list. -/
def withdrawTotal (reqs : List WalletRequest) : Int :=
  ((reqs.filter (fun r => r.OperationType = Withdraw)).map (fun r => r.Amount.val)).sum

/-- Responses to a sequence of requests served one after another. -/
def runResponses (db : DB) : List (Env × WalletRequest) → List Response
  | [] => []
  | (env, req) :: rest =>
      (handleWalletOperation env db req).1
        :: runResponses (handleWalletOperation env db req).2 rest

/-- No store operation fails while a sequence of requests is served one after another. -/
def NoStoreFailureRun (db : DB) : List (Env × WalletRequest) → Prop
  | [] => True
  | (env, req) :: rest =>
      env.NoStoreFailure db ∧ NoStoreFailureRun (handleWalletOperation env db req).2 rest

instance : (db : DB) → (steps : List (Env × WalletRequest)) →
    Decidable (NoStoreFailureRun db steps)
  | _, [] => isTrue trivial
  | db, (env, req) :: rest =>
      have := instDecidableNoStoreFailureRun (handleWalletOperation env db req).2 rest
      inferInstanceAs (Decidable
        (env.NoStoreFailure db ∧ NoStoreFailureRun (handleWalletOperation env db req).2 rest))

/-- The deposit of a request fits the signed 64-bit range: the committed balance of its
wallet (`0` for a wallet that does not exist yet) plus the amount is below `2^63`. Requests
that are no deposits always satisfy it. -/
def DepositFits (db : DB) (req : WalletRequest) : Prop :=
  req.OperationType = Deposit →
    ((db.balanceOf req.WalletID).getD 0).val + req.Amount.val < 9223372036854775808

instance (db : DB) (req : WalletRequest) : Decidable (DepositFits db req) := by
  unfold DepositFits; infer_instance

/-- No deposit leaves the signed 64-bit range while a sequence of requests is served one
after another. -/
def NoDepositOverflowRun (db : DB) : List (Env × WalletRequest) → Prop
  | [] => True
  | (env, req) :: rest =>
      DepositFits db req ∧ NoDepositOverflowRun (handleWalletOperation env db req).2 rest

instance : (db : DB) → (steps : List (Env × WalletRequest)) →
    Decidable (NoDepositOverflowRun db steps)
  | _, [] => isTrue trivial
  | db, (env, req) :: rest =>
      have := instDecidableNoDepositOverflowRun (handleWalletOperation env db req).2 rest
      inferInstanceAs (Decidable
        (DepositFits db req ∧ NoDepositOverflowRun (handleWalletOperation env db req).2 rest))

/-- Every committed balance is exactly the sum over the audit trail of its wallet. -/
def DB.LedgerExact (db : DB) : Prop :=
  ∀ w ∈ db.wallets, w.Balance.val = ledgerSum (db.auditTrail w.ID)

/-- The requests of scenarios 1 to 3 of the specification: a deposit of 1000 on the unknown
wallet 7, a withdrawal of 300 and a rejected withdrawal of 1000. -/
def scenarioRequests : List (Env × WalletRequest) :=
  [(quietEnv 1, ⟨7, Deposit, 1000⟩), (quietEnv 2, ⟨7, Withdraw, 300⟩),
   (quietEnv 3, ⟨7, Withdraw, 1000⟩)]

/-- The tables of the example scenarios of the specification: a deposit of 1000 on the
unknown wallet 7, then a withdrawal of 300. -/
def scenarioTables : DB :=
  runRequests DB.empty [(quietEnv 1, ⟨7, Deposit, 1000⟩), (quietEnv 2, ⟨7, Withdraw, 300⟩)]

/-- Two accepted deposits on one wallet whose sum leaves the signed 64-bit range. -/
def overflowingDeposits : List (Env × WalletRequest) :=
  [(quietEnv 1, ⟨7, Deposit, 9223372036854775807⟩), (quietEnv 2, ⟨7, Deposit, 1⟩)]

/-! ## Basic facts -/

theorem I64.ext_val {a b : I64} (h : a.val = b.val) : a = b := by
  cases a; cases b; simp only [I64.mk.injEq]; exact h

theorem I64.wrap_val_of_inRange (x : Int)
    (h : -9223372036854775808 ≤ x ∧ x < 9223372036854775808) : (I64.wrap x).val = x := by
  simp only [I64.wrap]; omega

theorem I64.zero_val : (0 : I64).val = 0 := by decide

theorem I64.zero_add (a : I64) : (0 : I64).add a = a := by
  apply I64.ext_val
  have h := a.inRange
  simp only [I64.add, I64.zero_val, Int.zero_add]
  exact I64.wrap_val_of_inRange _ h

theorem I64.sub_val_of_le (a b : I64) (hb : 0 ≤ b.val) (hab : b.val ≤ a.val) :
    (a.sub b).val = a.val - b.val := by
  have ha := a.inRange
  simp only [I64.sub]
  apply I64.wrap_val_of_inRange
  omega

theorem DB.findWallet_ID {db : DB} {walletID : UUID} {w : Wallet}
    (h : db.findWallet walletID = some w) : w.ID = walletID := by
  have := List.find?_some h
  simpa using this

theorem GetWalletBalanceSimple_of_find (db : DB) (walletID : UUID) (w : Wallet)
    (h : db.findWallet walletID = some w) :
    GetWalletBalanceSimple false db walletID = .ok w.Balance := by
  simp [GetWalletBalanceSimple, h]

theorem updateRow_ID (env : Env) (walletID : UUID) (nb : I64) (w : Wallet) :
    (updateRow env walletID nb w).ID = w.ID := by
  unfold updateRow; split <;> rfl

theorem find?_map_updateRow (env : Env) (walletID : UUID) (nb : I64) (key : UUID)
    (l : List Wallet) :
    (l.map (updateRow env walletID nb)).find? (fun w => w.ID = key)
      = (l.find? (fun w => w.ID = key)).map (updateRow env walletID nb) := by
  induction l with
  | nil => rfl
  | cons a l ih =>
    simp only [List.map_cons, List.find?_cons, updateRow_ID]
    split
    · rfl
    · exact ih

theorem applyAndCommit_ok (env : Env) (db tx : DB) (wlt : Wallet) (req : WalletRequest)
    (nb : I64) (happly : applyOperation wlt.Balance req = some nb)
    (hupd : env.updateFails = false) (hins : env.insertFails = false)
    (hcom : env.commitFails = false)
    (hfresh : ∀ t ∈ tx.transactions, t.ID ≠ env.transactionID)
    (hex : (tx.findWallet wlt.ID).isSome = true)
    (hlen : req.OperationType.length ≤ 10) :
    applyAndCommit env db tx wlt req
      = (.json { WalletID := wlt.ID, Balance := nb },
         committedTables env tx wlt.ID nb req) := by
  have hfk : ((DB.mk (tx.wallets.map (updateRow env wlt.ID nb)) tx.transactions).findWallet
      wlt.ID).isSome = true := by
    simp only [DB.findWallet] at hex ⊢
    rw [find?_map_updateRow]
    simpa using hex
  have hany : tx.transactions.any (fun u => decide (u.ID = env.transactionID)) = false := by
    simpa using hfresh
  have hne : (DB.mk (tx.wallets.map (updateRow env wlt.ID nb)) tx.transactions).findWallet
      wlt.ID ≠ none := by
    intro h0
    rw [h0] at hfk
    exact Bool.noConfusion hfk
  simp only [applyAndCommit, happly, UpdateWalletBalance, hupd, AddTransactionRecord, hins,
    Commit, hcom, committedTables]
  have hlen' : ¬ 10 < req.OperationType.length := by omega
  simp [hany, hne, hlen']

theorem committedTables_findWallet (env : Env) (tx : DB) (walletID : UUID) (nb : I64)
    (req : WalletRequest) (w : Wallet) (h : tx.findWallet walletID = some w) :
    (committedTables env tx walletID nb req).findWallet walletID
      = some { w with Balance := nb, UpdatedAt := env.updateTime } := by
  have hid := DB.findWallet_ID h
  simp only [DB.findWallet] at h
  simp only [committedTables, DB.findWallet, find?_map_updateRow, h, Option.map_some',
    updateRow, hid, if_true]

theorem handleWalletOperation_found (env : Env) (db : DB) (req : WalletRequest) (w : Wallet)
    (hvalid : req.Validate = none) (hbegin : env.beginFails = false)
    (hsel : env.selectFails = false) (hw : db.findWallet req.WalletID = some w) :
    handleWalletOperation env db req = applyAndCommit env db db w req := by
  simp [handleWalletOperation, hvalid, Begin, hbegin, GetWallet, hsel, hw]

/-! ## Validation -/

theorem Validate_eq_none_iff (r : WalletRequest) :
    r.Validate = none ↔
      r.WalletID ≠ uuidNil ∧ 0 < r.Amount.val ∧
        (r.OperationType = "DEPOSIT" ∨ r.OperationType = "WITHDRAW") := by
  unfold WalletRequest.Validate Deposit Withdraw
  constructor
  · intro h
    by_cases h1 : r.WalletID = uuidNil
    · simp [h1] at h
    · by_cases h2 : r.Amount.val ≤ 0
      · simp [h1, h2] at h
      · by_cases h3 : r.OperationType = "DEPOSIT"
        · exact ⟨h1, by omega, Or.inl h3⟩
        · by_cases h4 : r.OperationType = "WITHDRAW"
          · exact ⟨h1, by omega, Or.inr h4⟩
          · simp [h1, h2, h3, h4] at h
  · rintro ⟨h1, h2, h3⟩
    have h2' : ¬ r.Amount.val ≤ 0 := by omega
    rcases h3 with h3 | h3 <;> simp [h1, h2', h3]

/-- C1: `Validate` returns no error exactly when the wallet identifier is not the nil UUID,
the amount is strictly positive and the operation type is exactly "DEPOSIT" or exactly
"WITHDRAW". -/
theorem validate_accepts_iff (r : WalletRequest) :
    r.Validate = none ↔
      r.WalletID ≠ uuidNil ∧ 0 < r.Amount.val ∧
        (r.OperationType = "DEPOSIT" ∨ r.OperationType = "WITHDRAW") :=
  Validate_eq_none_iff r

/-- C2: `Validate` reports the first failing rule in the order identifier, amount, type: a
nil identifier gives the identifier error whatever the rest is; a non-nil identifier with
an amount `≤ 0` gives the amount error whatever the type is; the operation-type error is
returned only when the identifier is non-nil and the amount is positive, and then it is
returned for every type other than the two constants. -/
theorem validate_first_failure (r : WalletRequest) :
    (r.WalletID = uuidNil → r.Validate = some .emptyWalletID) ∧
    (r.WalletID ≠ uuidNil → r.Amount.val ≤ 0 → r.Validate = some .nonPositiveAmount) ∧
    (∀ t, r.Validate = some (.invalidOperationType t) →
        r.WalletID ≠ uuidNil ∧ 0 < r.Amount.val) ∧
    (r.WalletID ≠ uuidNil → 0 < r.Amount.val → r.OperationType ≠ Deposit →
        r.OperationType ≠ Withdraw →
        r.Validate = some (.invalidOperationType r.OperationType)) := by
  unfold WalletRequest.Validate
  refine ⟨?_, ?_, ?_, ?_⟩
  · intro h; simp [h]
  · intro h1 h2; simp [h1, h2]
  · intro t h
    by_cases h1 : r.WalletID = uuidNil
    · simp [h1] at h
    · by_cases h2 : r.Amount.val ≤ 0
      · simp [h1, h2] at h
      · exact ⟨h1, by omega⟩
  · intro h1 h2 h3 h4
    have h2' : ¬ r.Amount.val ≤ 0 := by omega
    simp [h1, h2', h3, h4]

/-- C2 at concrete requests: a nil identifier with a bad amount and a bad type reports the
identifier; a good identifier with amount `0` and a bad type reports the amount. -/
theorem validate_first_failure_witness :
    (⟨uuidNil, "TRANSFER", 0⟩ : WalletRequest).Validate = some .emptyWalletID ∧
    (⟨7, "TRANSFER", 0⟩ : WalletRequest).Validate = some .nonPositiveAmount :=
  ⟨(validate_first_failure ⟨uuidNil, "TRANSFER", 0⟩).1 rfl,
   (validate_first_failure ⟨7, "TRANSFER", 0⟩).2.1 (by decide) (by decide)⟩

/-! ## The transaction coordinator: helper facts -/

theorem applyOperation_deposit (b : I64) (req : WalletRequest)
    (hop : req.OperationType = Deposit) : applyOperation b req = some (b.add req.Amount) := by
  simp [applyOperation, hop]

theorem applyOperation_withdraw (b : I64) (req : WalletRequest)
    (hop : req.OperationType = Withdraw) :
    applyOperation b req
      = if b.val < req.Amount.val then none else some (b.sub req.Amount) := by
  have hne : Withdraw ≠ Deposit := by decide
  simp [applyOperation, hop, hne]

theorem applyAndCommit_error_unchanged (env : Env) (db tx : DB) (wlt : Wallet)
    (req : WalletRequest) (h : (applyAndCommit env db tx wlt req).1.status ≠ 200) :
    (applyAndCommit env db tx wlt req).2 = db := by
  revert h
  unfold applyAndCommit
  repeat' split
  all_goals first
    | (intro _; rfl)
    | (intro h; exact absurd rfl h)

theorem handleWalletOperation_error_unchanged (env : Env) (db : DB) (req : WalletRequest)
    (h : (handleWalletOperation env db req).1.status ≠ 200) :
    (handleWalletOperation env db req).2 = db := by
  revert h
  unfold handleWalletOperation
  repeat' split
  all_goals first
    | (intro _; rfl)
    | exact applyAndCommit_error_unchanged _ _ _ _ _

theorem handleWalletOperation_beginFails (env : Env) (db : DB) (req : WalletRequest)
    (hvalid : req.Validate = none) (hbegin : env.beginFails = true) :
    handleWalletOperation env db req
      = (.error "Internal server error" StatusInternalServerError, db) := by
  simp [handleWalletOperation, hvalid, Begin, hbegin]

theorem handleWalletOperation_selectFails (env : Env) (db : DB) (req : WalletRequest)
    (hvalid : req.Validate = none) (hbegin : env.beginFails = false)
    (hsel : env.selectFails = true) :
    handleWalletOperation env db req
      = (.error "Internal server error" StatusInternalServerError, db) := by
  simp [handleWalletOperation, hvalid, Begin, hbegin, GetWallet, hsel]

theorem handleWalletOperation_store_down (env : Env) (db : DB) (req : WalletRequest)
    (hvalid : req.Validate = none)
    (h : env.beginFails = true ∨ env.selectFails = true) :
    handleWalletOperation env db req
      = (.error "Internal server error" StatusInternalServerError, db) := by
  cases hb : env.beginFails with
  | true => exact handleWalletOperation_beginFails env db req hvalid hb
  | false =>
    rcases h with h | h
    · rw [hb] at h; cases h
    · exact handleWalletOperation_selectFails env db req hvalid hb h

/-- Every run of the steps after the `switch` either ends with an error and the committed
tables as they were, or answers `200` and commits the rewritten balance together with one
audit row. -/
theorem applyAndCommit_cases (env : Env) (db tx : DB) (wlt : Wallet) (req : WalletRequest) :
    ((applyAndCommit env db tx wlt req).1.status ≠ 200 ∧
      (applyAndCommit env db tx wlt req).2 = db) ∨
    ∃ nb, applyOperation wlt.Balance req = some nb ∧
      (∀ t ∈ tx.transactions, t.ID ≠ env.transactionID) ∧
      (tx.findWallet wlt.ID).isSome = true ∧
      applyAndCommit env db tx wlt req
        = (.json { WalletID := wlt.ID, Balance := nb },
           committedTables env tx wlt.ID nb req) := by
  by_cases h200 : (applyAndCommit env db tx wlt req).1.status = 200
  · right
    cases happly : applyOperation wlt.Balance req with
    | none =>
      simp [applyAndCommit, happly, Response.status, StatusBadRequest] at h200
    | some nb =>
      have hu : env.updateFails = false := by
        cases h : env.updateFails with
        | false => rfl
        | true =>
          simp [applyAndCommit, happly, UpdateWalletBalance, h, Response.status,
            StatusInternalServerError] at h200
      have hi : env.insertFails = false := by
        cases h : env.insertFails with
        | false => rfl
        | true =>
          simp [applyAndCommit, happly, UpdateWalletBalance, hu, AddTransactionRecord, h,
            Response.status, StatusInternalServerError] at h200
      have hfresh : ∀ t ∈ tx.transactions, t.ID ≠ env.transactionID := by
        by_contra hnot
        have hany : tx.transactions.any (fun u => decide (u.ID = env.transactionID))
            = true := by
          simpa using hnot
        simp [applyAndCommit, happly, UpdateWalletBalance, hu, AddTransactionRecord, hany,
          Response.status, StatusInternalServerError] at h200
      have hex : (tx.findWallet wlt.ID).isSome = true := by
        cases hf : tx.findWallet wlt.ID with
        | some v => rfl
        | none =>
          have hnone : (DB.mk (tx.wallets.map (updateRow env wlt.ID nb))
              tx.transactions).findWallet wlt.ID = none := by
            simp only [DB.findWallet] at hf ⊢
            rw [find?_map_updateRow, hf]; rfl
          simp [applyAndCommit, happly, UpdateWalletBalance, hu, AddTransactionRecord, hnone,
            Response.status, StatusInternalServerError] at h200
      have hlen : req.OperationType.length ≤ 10 := by
        by_contra hnot
        have hlong : 10 < req.OperationType.length := by omega
        simp [applyAndCommit, happly, UpdateWalletBalance, hu, AddTransactionRecord, hlong,
          Response.status, StatusInternalServerError] at h200
      have hc : env.commitFails = false := by
        cases h : env.commitFails with
        | false => rfl
        | true =>
          simp only [applyAndCommit, happly, UpdateWalletBalance, hu, AddTransactionRecord,
            hi, Commit, h] at h200
          revert h200
          simp only [Bool.false_eq_true, if_false, if_true, false_or]
          split <;> simp [Response.status, StatusInternalServerError]
      exact ⟨nb, rfl, hfresh, hex,
        applyAndCommit_ok env db tx wlt req nb happly hu hi hc hfresh hex hlen⟩
  · left
    exact ⟨h200, applyAndCommit_error_unchanged env db tx wlt req h200⟩

/-- Every run of the handler either ends with an error and the committed tables as they
were, or answers `200` and commits: on the wallet found by the locked read or, for a
request other than a withdrawal on an unknown identifier, on the wallet just created. -/
theorem handleWalletOperation_cases (env : Env) (db : DB) (req : WalletRequest) :
    ((handleWalletOperation env db req).1.status ≠ 200 ∧
      (handleWalletOperation env db req).2 = db) ∨
    (req.Validate = none ∧ ∃ tx wlt nb,
      ((db.findWallet req.WalletID = some wlt ∧ tx = db) ∨
        (db.findWallet req.WalletID = none ∧ req.OperationType ≠ Withdraw ∧
          wlt = newWallet env req.WalletID ∧
          tx = { db with wallets := db.wallets ++ [wlt] })) ∧
      applyOperation wlt.Balance req = some nb ∧
      (∀ t ∈ db.transactions, t.ID ≠ env.transactionID) ∧
      (tx.findWallet req.WalletID).isSome = true ∧
      handleWalletOperation env db req
        = (.json { WalletID := req.WalletID, Balance := nb },
           committedTables env tx req.WalletID nb req)) := by
  by_cases h200 : (handleWalletOperation env db req).1.status = 200
  · right
    cases hvalid : req.Validate with
    | some err =>
      simp [handleWalletOperation, hvalid, Response.status, StatusBadRequest] at h200
    | none =>
      refine ⟨rfl, ?_⟩
      have hb : env.beginFails = false := by
        cases h : env.beginFails with
        | false => rfl
        | true =>
          rw [handleWalletOperation_beginFails env db req hvalid h] at h200
          simp [Response.status, StatusInternalServerError] at h200
      have hs : env.selectFails = false := by
        cases h : env.selectFails with
        | false => rfl
        | true =>
          rw [handleWalletOperation_selectFails env db req hvalid hb h] at h200
          simp [Response.status, StatusInternalServerError] at h200
      cases hf : db.findWallet req.WalletID with
      | some w =>
        have hid : w.ID = req.WalletID := DB.findWallet_ID hf
        have hstep := handleWalletOperation_found env db req w hvalid hb hs hf
        rw [hstep] at h200
        rcases applyAndCommit_cases env db db w req with ⟨hne, _⟩ | ⟨nb, ha, hfr, hex, hrun⟩
        · exact absurd h200 hne
        · refine ⟨db, w, nb, Or.inl ⟨rfl, rfl⟩, ha, hfr, ?_, ?_⟩
          · rw [← hid]; exact hex
          · rw [hstep, hrun, hid]
      | none =>
        have hnw : req.OperationType ≠ Withdraw := by
          intro hop
          simp [handleWalletOperation, hvalid, Begin, hb, GetWallet, hs, hf, hop,
            Response.status, StatusNotFound] at h200
        have hcr : env.createFails = false := by
          cases h : env.createFails with
          | false => rfl
          | true =>
            simp [handleWalletOperation, hvalid, Begin, hb, GetWallet, hs, hf, hnw,
              CreateWallet, h, Response.status, StatusInternalServerError] at h200
        have hstep : handleWalletOperation env db req
            = applyAndCommit env db { db with wallets := db.wallets ++ [newWallet env req.WalletID] }
                (newWallet env req.WalletID) req := by
          simp [handleWalletOperation, hvalid, Begin, hb, GetWallet, hs, hf, hnw,
            CreateWallet, hcr, newWallet]
        rw [hstep] at h200
        rcases applyAndCommit_cases env db
            { db with wallets := db.wallets ++ [newWallet env req.WalletID] }
            (newWallet env req.WalletID) req with ⟨hne, _⟩ | ⟨nb, ha, hfr, hex, hrun⟩
        · exact absurd h200 hne
        · exact ⟨_, newWallet env req.WalletID, nb, Or.inr ⟨rfl, hnw, rfl, rfl⟩, ha, hfr,
            hex, by rw [hstep, hrun]; rfl⟩
  · left
    exact ⟨h200, handleWalletOperation_error_unchanged env db req h200⟩

/-! ## The constraints of the schema hold in every reachable store -/

theorem DB.empty_consistent : DB.empty.Consistent := by decide

theorem map_ID_map_updateRow (env : Env) (walletID : UUID) (nb : I64) (l : List Wallet) :
    (l.map (updateRow env walletID nb)).map (fun w => w.ID) = l.map (fun w => w.ID) := by
  induction l with
  | nil => rfl
  | cons a l ih => simp only [List.map_cons, updateRow_ID, ih]

theorem committedTables_consistent (env : Env) (tx : DB) (walletID : UUID) (nb : I64)
    (req : WalletRequest) (hc : tx.Consistent)
    (hfresh : ∀ t ∈ tx.transactions, t.ID ≠ env.transactionID)
    (hex : (tx.findWallet walletID).isSome = true) :
    (committedTables env tx walletID nb req).Consistent := by
  obtain ⟨hw, ht, hfk⟩ := hc
  have hfind : ∀ key, ((committedTables env tx walletID nb req).findWallet key).isSome
      = (tx.findWallet key).isSome := by
    intro key
    simp only [committedTables, DB.findWallet, find?_map_updateRow, Option.isSome_map']
  refine ⟨?_, ?_, ?_⟩
  · simp only [committedTables, map_ID_map_updateRow]
    exact hw
  · simp only [committedTables, List.map_append, List.map_cons, List.map_nil]
    rw [List.nodup_append]
    refine ⟨ht, List.nodup_singleton _, ?_⟩
    intro a ha hb
    rw [List.mem_singleton] at hb
    rw [List.mem_map] at ha
    obtain ⟨t, htm, hta⟩ := ha
    exact hfresh t htm (hta.trans hb)
  · intro t htm
    rw [hfind]
    have hmem : t ∈ tx.transactions ++
        [{ ID := env.transactionID, WalletID := walletID, OpType := req.OperationType,
           Amount := req.Amount, Timestamp := env.recordTime }] := htm
    rw [List.mem_append, List.mem_singleton] at hmem
    rcases hmem with h | h
    · exact hfk t h
    · rw [h]; exact hex

theorem appendWallet_consistent (db : DB) (w : Wallet) (hc : db.Consistent)
    (hnone : db.findWallet w.ID = none) :
    ({ db with wallets := db.wallets ++ [w] } : DB).Consistent := by
  obtain ⟨hw, ht, hfk⟩ := hc
  have hall : ∀ v ∈ db.wallets, v.ID ≠ w.ID := by
    intro v hv hid
    simp only [DB.findWallet] at hnone
    have := List.find?_eq_none.1 hnone v hv
    simp [hid] at this
  refine ⟨?_, ht, ?_⟩
  · simp only [List.map_append, List.map_cons, List.map_nil]
    rw [List.nodup_append]
    refine ⟨hw, List.nodup_singleton _, ?_⟩
    intro a ha hb
    rw [List.mem_singleton] at hb
    rw [List.mem_map] at ha
    obtain ⟨v, hvm, hva⟩ := ha
    exact hall v hvm (hva.trans hb)
  · intro t htm
    have h := hfk t htm
    simp only [DB.findWallet] at h ⊢
    rw [List.find?_append]
    cases hf : db.wallets.find? (fun v => decide (v.ID = t.WalletID)) with
    | none => rw [hf] at h; cases h
    | some v => rfl

theorem handleWalletOperation_consistent (env : Env) (db : DB) (req : WalletRequest)
    (hc : db.Consistent) : (handleWalletOperation env db req).2.Consistent := by
  rcases handleWalletOperation_cases env db req with
    ⟨_, hsame⟩ | ⟨_, tx, wlt, nb, hwhere, _, hfresh, hex, hrun⟩
  · rw [hsame]; exact hc
  · rw [hrun]
    rcases hwhere with ⟨_, htx⟩ | ⟨hnone, _, hwlt, htx⟩
    · subst htx
      exact committedTables_consistent env tx req.WalletID nb req hc hfresh hex
    · subst htx
      have hbase : ({ db with wallets := db.wallets ++ [wlt] } : DB).Consistent := by
        apply appendWallet_consistent db wlt hc
        rw [hwlt]; exact hnone
      exact committedTables_consistent env { db with wallets := db.wallets ++ [wlt] }
        req.WalletID nb req hbase hfresh hex

/-- Every store reached from a store that satisfies the constraints of the schema satisfies
them. -/
theorem runRequests_consistent (reqs : List (Env × WalletRequest)) (db : DB)
    (hc : db.Consistent) : (runRequests db reqs).Consistent := by
  induction reqs generalizing db with
  | nil => exact hc
  | cons a rest ih =>
    obtain ⟨env, req⟩ := a
    exact ih _ (handleWalletOperation_consistent env db req hc)

theorem auditTrail_eq_nil_of_unknown (db : DB) (walletID : UUID) (hcons : db.Consistent)
    (hnone : db.findWallet walletID = none) : db.auditTrail walletID = [] := by
  unfold DB.auditTrail
  rw [List.filter_eq_nil_iff]
  intro t ht hid
  have hfk := hcons.2.2 t ht
  have hid' : t.WalletID = walletID := by simpa using hid
  rw [hid', hnone] at hfk
  cases hfk

/-! ## What holds of the balances in every reachable store -/

theorem DB.mem_of_findWallet {db : DB} {walletID : UUID} {w : Wallet}
    (h : db.findWallet walletID = some w) : w ∈ db.wallets :=
  List.mem_of_find?_eq_some h

theorem applyOperation_nonneg (b nb : I64) (req : WalletRequest)
    (hvalid : req.Validate = none) (hb : 0 ≤ b.val)
    (hno : req.OperationType = Deposit → b.val + req.Amount.val < 9223372036854775808)
    (h : applyOperation b req = some nb) : 0 ≤ nb.val := by
  obtain ⟨_, hpos, hty⟩ := (Validate_eq_none_iff req).1 hvalid
  rcases hty with hop | hop
  · have hop' : req.OperationType = Deposit := hop
    rw [applyOperation_deposit b req hop'] at h
    have hlt := hno hop'
    have hval : (b.add req.Amount).val = b.val + req.Amount.val := by
      simp only [I64.add]
      apply I64.wrap_val_of_inRange
      omega
    cases h
    omega
  · have hop' : req.OperationType = Withdraw := hop
    rw [applyOperation_withdraw b req hop'] at h
    by_cases hlt : b.val < req.Amount.val
    · rw [if_pos hlt] at h; cases h
    · rw [if_neg hlt] at h
      have hval := I64.sub_val_of_le b req.Amount (by omega) (by omega)
      cases h
      omega

/-- One step keeps the committed balances non-negative, unless it is a deposit on an
existing wallet whose sum with the balance leaves the signed 64-bit range. -/
theorem handleWalletOperation_nonNegative (env : Env) (db : DB) (req : WalletRequest)
    (hnn : db.NonNegative)
    (hno : ∀ w, db.findWallet req.WalletID = some w → req.OperationType = Deposit →
      w.Balance.val + req.Amount.val < 9223372036854775808) :
    (handleWalletOperation env db req).2.NonNegative := by
  rcases handleWalletOperation_cases env db req with
    ⟨_, hsame⟩ | ⟨hvalid, tx, wlt, nb, hwhere, happly, _, _, hrun⟩
  · rw [hsame]; exact hnn
  · rw [hrun]
    have hbase : tx.NonNegative ∧ 0 ≤ nb.val := by
      rcases hwhere with ⟨hf, htx⟩ | ⟨_, _, hwlt, htx⟩
      · subst htx
        exact ⟨hnn, applyOperation_nonneg wlt.Balance nb req hvalid
          (hnn wlt (DB.mem_of_findWallet hf)) (hno wlt hf) happly⟩
      · subst htx
        have hzero : wlt.Balance.val = 0 := by rw [hwlt]; exact I64.zero_val
        refine ⟨?_, ?_⟩
        · intro v hv
          have hv' : v ∈ db.wallets ++ [wlt] := hv
          rw [List.mem_append, List.mem_singleton] at hv'
          rcases hv' with h | h
          · exact hnn v h
          · rw [h, hzero]
        · apply applyOperation_nonneg wlt.Balance nb req hvalid (by omega) _ happly
          intro _
          have := req.Amount.inRange
          omega
    obtain ⟨htx, hnb⟩ := hbase
    intro v hv
    have hv' : v ∈ tx.wallets.map (updateRow env req.WalletID nb) := hv
    rw [List.mem_map] at hv'
    obtain ⟨u, hu, huv⟩ := hv'
    rw [← huv]
    unfold updateRow
    split
    · exact hnb
    · exact htx u hu

theorem I64.wrap_add_wrap (x a : Int) : I64.wrap ((I64.wrap x).val + a) = I64.wrap (x + a) := by
  apply I64.ext_val
  simp only [I64.wrap]
  omega

theorem I64.wrap_sub_wrap (x a : Int) : I64.wrap ((I64.wrap x).val - a) = I64.wrap (x - a) := by
  apply I64.ext_val
  simp only [I64.wrap]
  omega

theorem ledgerSum_append_deposit (trail : List Transaction) (t : Transaction)
    (h : t.OpType = Deposit) : ledgerSum (trail ++ [t]) = ledgerSum trail + t.Amount.val := by
  have hne : Deposit ≠ Withdraw := by decide
  simp only [ledgerSum, List.filter_append, List.map_append, List.sum_append]
  simp [h, hne]
  omega

theorem ledgerSum_append_withdraw (trail : List Transaction) (t : Transaction)
    (h : t.OpType = Withdraw) : ledgerSum (trail ++ [t]) = ledgerSum trail - t.Amount.val := by
  have hne : Withdraw ≠ Deposit := by decide
  simp only [ledgerSum, List.filter_append, List.map_append, List.sum_append]
  simp [h, hne]
  omega

theorem auditTrail_committedTables_same (env : Env) (tx : DB) (walletID : UUID) (nb : I64)
    (req : WalletRequest) :
    (committedTables env tx walletID nb req).auditTrail walletID
      = tx.auditTrail walletID ++
        [{ ID := env.transactionID, WalletID := walletID, OpType := req.OperationType,
           Amount := req.Amount, Timestamp := env.recordTime }] := by
  simp [DB.auditTrail, committedTables, List.filter_append]

theorem auditTrail_committedTables_other (env : Env) (tx : DB) (walletID key : UUID)
    (nb : I64) (req : WalletRequest) (hne : walletID ≠ key) :
    (committedTables env tx walletID nb req).auditTrail key = tx.auditTrail key := by
  simp [DB.auditTrail, committedTables, List.filter_append, hne]

theorem applyOperation_ledger (b nb : I64) (req : WalletRequest) (trail : List Transaction)
    (t : Transaction) (hvalid : req.Validate = none) (hb : b = I64.wrap (ledgerSum trail))
    (hty : t.OpType = req.OperationType) (ham : t.Amount = req.Amount)
    (h : applyOperation b req = some nb) : nb = I64.wrap (ledgerSum (trail ++ [t])) := by
  obtain ⟨_, _, hop⟩ := (Validate_eq_none_iff req).1 hvalid
  rcases hop with hop | hop
  · have hop' : req.OperationType = Deposit := hop
    rw [applyOperation_deposit b req hop'] at h
    rw [ledgerSum_append_deposit trail t (hty.trans hop'), ham]
    cases h
    rw [hb]
    exact I64.wrap_add_wrap _ _
  · have hop' : req.OperationType = Withdraw := hop
    rw [applyOperation_withdraw b req hop'] at h
    rw [ledgerSum_append_withdraw trail t (hty.trans hop'), ham]
    by_cases hlt : b.val < req.Amount.val
    · rw [if_pos hlt] at h; cases h
    · rw [if_neg hlt] at h
      cases h
      rw [hb]
      exact I64.wrap_sub_wrap _ _

/-- One step keeps every committed balance equal to the sum over the audit trail of its
wallet reduced to 64 bits. -/
theorem handleWalletOperation_ledgerMod (env : Env) (db : DB) (req : WalletRequest)
    (hc : db.Consistent) (hl : db.LedgerMod) :
    (handleWalletOperation env db req).2.LedgerMod := by
  rcases handleWalletOperation_cases env db req with
    ⟨_, hsame⟩ | ⟨hvalid, tx, wlt, nb, hwhere, happly, _, _, hrun⟩
  · rw [hsame]; exact hl
  · rw [hrun]
    have hbase : tx.LedgerMod ∧
        wlt.Balance = I64.wrap (ledgerSum (tx.auditTrail req.WalletID)) := by
      rcases hwhere with ⟨hf, htx⟩ | ⟨hnone, _, hwlt, htx⟩
      · subst htx
        have h := hl wlt (DB.mem_of_findWallet hf)
        rw [DB.findWallet_ID hf] at h
        exact ⟨hl, h⟩
      · subst htx
        have htrail : db.auditTrail req.WalletID = [] :=
          auditTrail_eq_nil_of_unknown db req.WalletID hc hnone
        have hzero : wlt.Balance = I64.wrap (ledgerSum (db.auditTrail req.WalletID)) := by
          rw [htrail, hwlt]; rfl
        refine ⟨?_, hzero⟩
        intro v hv
        have hv' : v ∈ db.wallets ++ [wlt] := hv
        rw [List.mem_append, List.mem_singleton] at hv'
        rcases hv' with h | h
        · exact hl v h
        · rw [h]
          have hid : wlt.ID = req.WalletID := by rw [hwlt]; rfl
          rw [hid]
          exact hzero
    obtain ⟨htx, hwb⟩ := hbase
    have hnb := applyOperation_ledger wlt.Balance nb req (tx.auditTrail req.WalletID)
      { ID := env.transactionID, WalletID := req.WalletID, OpType := req.OperationType,
        Amount := req.Amount, Timestamp := env.recordTime } hvalid hwb rfl rfl happly
    intro v hv
    have hv' : v ∈ tx.wallets.map (updateRow env req.WalletID nb) := hv
    rw [List.mem_map] at hv'
    obtain ⟨u, hu, huv⟩ := hv'
    by_cases hid : u.ID = req.WalletID
    · have hvid : v.ID = req.WalletID := by rw [← huv, updateRow_ID]; exact hid
      have hvb : v.Balance = nb := by rw [← huv]; simp [updateRow, hid]
      rw [hvid, hvb, auditTrail_committedTables_same]
      exact hnb
    · have hvu : v = u := by rw [← huv]; simp [updateRow, hid]
      rw [hvu, auditTrail_committedTables_other env tx req.WalletID u.ID nb req
        (fun h => hid h.symm)]
      exact htx u hu

/-- In every store reached from the empty store, every committed balance is the sum of the
Deposit amounts minus the sum of the Withdraw amounts of the audit trail of its wallet,
reduced to the signed 64-bit range. -/
theorem runRequests_ledgerMod (reqs : List (Env × WalletRequest)) (db : DB)
    (hc : db.Consistent) (hl : db.LedgerMod) : (runRequests db reqs).LedgerMod := by
  induction reqs generalizing db with
  | nil => exact hl
  | cons a rest ih =>
    obtain ⟨env, req⟩ := a
    exact ih _ (handleWalletOperation_consistent env db req hc)
      (handleWalletOperation_ledgerMod env db req hc hl)

/-! ## Withdrawals on an existing wallet -/

/-- C3 (amended): for an existing wallet with committed balance `B` and a valid Withdraw
request with amount `A > B`, the handler commits nothing: the tables, the balance of the
wallet and its audit trail are as before. When the transaction begins and the locked read
succeeds the response is `400 Insufficient balance`; when one of them fails it is `500`. -/
theorem overdraft_rejected_without_effect (env : Env) (db : DB) (req : WalletRequest)
    (w : Wallet) (hw : db.findWallet req.WalletID = some w)
    (hvalid : req.Validate = none) (hop : req.OperationType = Withdraw)
    (hover : w.Balance.val < req.Amount.val) :
    (handleWalletOperation env db req).2 = db ∧
    GetWalletBalanceSimple false (handleWalletOperation env db req).2 req.WalletID
      = .ok w.Balance ∧
    (handleWalletOperation env db req).2.auditTrail req.WalletID
      = db.auditTrail req.WalletID ∧
    (env.beginFails = false → env.selectFails = false →
      (handleWalletOperation env db req).1
        = .error "Insufficient balance" StatusBadRequest) ∧
    (env.beginFails = true ∨ env.selectFails = true →
      (handleWalletOperation env db req).1
        = .error "Internal server error" StatusInternalServerError) := by
  have hsame : (handleWalletOperation env db req).2 = db := by
    apply handleWalletOperation_error_unchanged
    by_cases hdown : env.beginFails = true ∨ env.selectFails = true
    · rw [handleWalletOperation_store_down env db req hvalid hdown]
      simp [Response.status, StatusInternalServerError]
    · have hb : env.beginFails = false := by
        cases h : env.beginFails with
        | true => exact absurd (Or.inl h) hdown
        | false => rfl
      have hs : env.selectFails = false := by
        cases h : env.selectFails with
        | true => exact absurd (Or.inr h) hdown
        | false => rfl
      rw [handleWalletOperation_found env db req w hvalid hb hs hw]
      simp [applyAndCommit, applyOperation_withdraw _ _ hop, hover, Response.status,
        StatusBadRequest]
  refine ⟨hsame, ?_, ?_, ?_, ?_⟩
  · rw [hsame]; simp [GetWalletBalanceSimple, hw]
  · rw [hsame]
  · intro hb hs
    rw [handleWalletOperation_found env db req w hvalid hb hs hw]
    simp only [applyAndCommit, applyOperation_withdraw _ _ hop, hover, if_true]
  · intro hdown
    rw [handleWalletOperation_store_down env db req hvalid hdown]

/-- C3 at scenario 3 of the specification: after a deposit of 1000 and a withdrawal of 300,
a withdrawal of 1000 is answered with 400 and the balance is still 700. -/
theorem overdraft_rejected_without_effect_witness :
    (handleWalletOperation (quietEnv 3) scenarioTables ⟨7, Withdraw, 1000⟩).1
      = .error "Insufficient balance" StatusBadRequest ∧
    GetWalletBalanceSimple false
        (handleWalletOperation (quietEnv 3) scenarioTables ⟨7, Withdraw, 1000⟩).2 7
      = .ok 700 :=
  have h := overdraft_rejected_without_effect (quietEnv 3) scenarioTables
    ⟨7, Withdraw, 1000⟩ ⟨7, 700, 0, 0⟩ (by decide) (by decide) (by decide) (by decide)
  ⟨h.2.2.2.1 rfl rfl, h.2.1⟩

/-- C3 as stated fails: on the tables of scenario 2 the valid over-drawing withdrawal of
1000 on the existing wallet 7 is answered with `500`, not with a client error, when
`DB.Begin()` fails. -/
theorem overdraft_client_error_counterexample :
    scenarioTables.findWallet 7 = some ⟨7, 700, 0, 0⟩ ∧
    (⟨7, Withdraw, 1000⟩ : WalletRequest).Validate = none ∧
    (handleWalletOperation { quietEnv 3 with beginFails := true } scenarioTables
        ⟨7, Withdraw, 1000⟩).1.status = 500 := by
  decide

/-- C4: for an existing wallet with committed balance `B` and a valid Withdraw request with
`0 < A ≤ B`, when no store operation fails the handler answers `200` with the wallet
identifier and balance `B - A`, and `B - A` is the committed balance afterwards; with
`A = B` the balance left is `0`. -/
theorem covered_withdrawal_subtracts (env : Env) (db : DB) (req : WalletRequest)
    (w : Wallet) (hw : db.findWallet req.WalletID = some w)
    (hvalid : req.Validate = none) (hop : req.OperationType = Withdraw)
    (hcov : req.Amount.val ≤ w.Balance.val) (hok : env.NoStoreFailure db) :
    (handleWalletOperation env db req).1
      = .json { WalletID := req.WalletID, Balance := w.Balance.sub req.Amount } ∧
    GetWalletBalanceSimple false (handleWalletOperation env db req).2 req.WalletID
      = .ok (w.Balance.sub req.Amount) ∧
    (w.Balance.sub req.Amount).val = w.Balance.val - req.Amount.val ∧
    (req.Amount = w.Balance → (w.Balance.sub req.Amount).val = 0) := by
  obtain ⟨hb, hs, _, hu, hi, hc, hfresh⟩ := hok
  have hpos : 0 < req.Amount.val := ((Validate_eq_none_iff req).1 hvalid).2.1
  have hid : w.ID = req.WalletID := DB.findWallet_ID hw
  have hnot : ¬ w.Balance.val < req.Amount.val := by omega
  have happly : applyOperation w.Balance req = some (w.Balance.sub req.Amount) := by
    rw [applyOperation_withdraw _ _ hop, if_neg hnot]
  have hex : (db.findWallet w.ID).isSome = true := by rw [hid, hw]; rfl
  have hlen : req.OperationType.length ≤ 10 := by rw [hop]; decide
  have hrun := applyAndCommit_ok env db db w req _ happly hu hi hc hfresh hex hlen
  have hval := I64.sub_val_of_le w.Balance req.Amount (by omega) hcov
  rw [handleWalletOperation_found env db req w hvalid hb hs hw, hrun, hid]
  refine ⟨rfl, ?_, hval, ?_⟩
  · exact GetWalletBalanceSimple_of_find _ _ _
      (committedTables_findWallet env db req.WalletID _ req w hw)
  · intro h; rw [hval, h]; omega

/-- C4 at scenario 2 of the specification and at a withdrawal of the whole balance. -/
theorem covered_withdrawal_subtracts_witness :
    (handleWalletOperation (quietEnv 2)
        (runRequests DB.empty [(quietEnv 1, ⟨7, Deposit, 1000⟩)]) ⟨7, Withdraw, 300⟩).1
      = .json ⟨7, 700⟩ ∧
    (handleWalletOperation (quietEnv 3) scenarioTables ⟨7, Withdraw, 700⟩).1
      = .json ⟨7, 0⟩ :=
  ⟨(covered_withdrawal_subtracts (quietEnv 2)
      (runRequests DB.empty [(quietEnv 1, ⟨7, Deposit, 1000⟩)]) ⟨7, Withdraw, 300⟩
      ⟨7, 1000, 0, 0⟩ (by decide) (by decide) (by decide) (by decide) (by decide)).1,
   (covered_withdrawal_subtracts (quietEnv 3) scenarioTables ⟨7, Withdraw, 700⟩
      ⟨7, 700, 0, 0⟩ (by decide) (by decide) (by decide) (by decide) (by decide)).1⟩

/-! ## Deposits -/

/-- C5: for an existing wallet with committed balance `B` and a valid Deposit request with
amount `A > 0`, when no store operation fails the handler answers `200` and both the
balance in the response and the committed balance are `B + A` in signed 64-bit arithmetic;
the deposit branch of the `switch` rejects no balance and no amount. -/
theorem deposit_adds_amount (env : Env) (db : DB) (req : WalletRequest)
    (w : Wallet) (hw : db.findWallet req.WalletID = some w)
    (hvalid : req.Validate = none) (hop : req.OperationType = Deposit)
    (hok : env.NoStoreFailure db) :
    (handleWalletOperation env db req).1
      = .json { WalletID := req.WalletID, Balance := I64.wrap (w.Balance.val + req.Amount.val) } ∧
    GetWalletBalanceSimple false (handleWalletOperation env db req).2 req.WalletID
      = .ok (I64.wrap (w.Balance.val + req.Amount.val)) ∧
    (∀ b : I64, applyOperation b req = some (I64.wrap (b.val + req.Amount.val))) := by
  obtain ⟨hb, hs, _, hu, hi, hc, hfresh⟩ := hok
  have hid : w.ID = req.WalletID := DB.findWallet_ID hw
  have happly : applyOperation w.Balance req = some (w.Balance.add req.Amount) :=
    applyOperation_deposit _ _ hop
  have hex : (db.findWallet w.ID).isSome = true := by rw [hid, hw]; rfl
  have hlen : req.OperationType.length ≤ 10 := by rw [hop]; decide
  have hrun := applyAndCommit_ok env db db w req _ happly hu hi hc hfresh hex hlen
  rw [handleWalletOperation_found env db req w hvalid hb hs hw, hrun, hid]
  refine ⟨rfl, ?_, fun b => applyOperation_deposit b req hop⟩
  exact GetWalletBalanceSimple_of_find _ _ _
    (committedTables_findWallet env db req.WalletID _ req w hw)

/-- C5 at a deposit of 10 on the wallet of scenario 2, whose balance is 700. -/
theorem deposit_adds_amount_witness :
    (handleWalletOperation (quietEnv 3) scenarioTables ⟨7, Deposit, 10⟩).1
      = .json ⟨7, 710⟩ ∧
    GetWalletBalanceSimple false
        (handleWalletOperation (quietEnv 3) scenarioTables ⟨7, Deposit, 10⟩).2 7
      = .ok 710 :=
  have h := deposit_adds_amount (quietEnv 3) scenarioTables ⟨7, Deposit, 10⟩
    ⟨7, 700, 0, 0⟩ (by decide) (by decide) (by decide) (by decide)
  ⟨h.1, h.2.1⟩

theorem find?_append_singleton_of_none (l : List Wallet) (w : Wallet)
    (h : l.find? (fun v => v.ID = w.ID) = none) :
    (l ++ [w]).find? (fun v => v.ID = w.ID) = some w := by
  induction l with
  | nil => simp
  | cons a l ih =>
    simp only [List.find?_cons] at h
    split at h
    · cases h
    · rename_i hne
      simp only [List.cons_append, List.find?_cons, hne]
      exact ih h

/-- C6: when wallet `W` does not exist, a valid Deposit request on `W` with amount `A`
creates the wallet and, when no store operation fails, commits: the response is
`{walletId: W, balance: A}` and afterwards `W` exists with committed balance exactly `A`. -/
theorem deposit_creates_wallet (env : Env) (db : DB) (req : WalletRequest)
    (hnone : db.findWallet req.WalletID = none)
    (hvalid : req.Validate = none) (hop : req.OperationType = Deposit)
    (hok : env.NoStoreFailure db) :
    (handleWalletOperation env db req).1
      = .json { WalletID := req.WalletID, Balance := req.Amount } ∧
    (handleWalletOperation env db req).2.findWallet req.WalletID
      = some { ID := req.WalletID, Balance := req.Amount,
               CreatedAt := env.createTime, UpdatedAt := env.updateTime } ∧
    GetWalletBalanceSimple false (handleWalletOperation env db req).2 req.WalletID
      = .ok req.Amount := by
  obtain ⟨hb, hs, hcr, hu, hi, hc, hfresh⟩ := hok
  have hne : Deposit ≠ Withdraw := by decide
  let w0 : Wallet :=
    { ID := req.WalletID, Balance := 0, CreatedAt := env.createTime,
      UpdatedAt := env.createTime }
  let tx1 : DB := { db with wallets := db.wallets ++ [w0] }
  have hstep : handleWalletOperation env db req = applyAndCommit env db tx1 w0 req := by
    simp [handleWalletOperation, hvalid, Begin, hb, GetWallet, hs, hnone, hop, hne,
      CreateWallet, hcr, tx1, w0]
  have hfind : tx1.findWallet req.WalletID = some w0 := by
    simp only [DB.findWallet] at hnone
    exact find?_append_singleton_of_none db.wallets w0 hnone
  have happly : applyOperation w0.Balance req = some req.Amount := by
    rw [applyOperation_deposit _ _ hop]
    exact congrArg some (I64.zero_add req.Amount)
  have hlen : req.OperationType.length ≤ 10 := by rw [hop]; decide
  have hex : (tx1.findWallet w0.ID).isSome = true := by
    show (tx1.findWallet req.WalletID).isSome = true
    rw [hfind]; rfl
  have hrun := applyAndCommit_ok env db tx1 w0 req _ happly hu hi hc hfresh hex hlen
  have hcommitted := committedTables_findWallet env tx1 req.WalletID req.Amount req w0 hfind
  rw [hstep, hrun]
  refine ⟨rfl, hcommitted, ?_⟩
  exact GetWalletBalanceSimple_of_find _ _ _ hcommitted

/-- C6 at scenario 1 of the specification: a deposit of 1000 on the unknown wallet 7. -/
theorem deposit_creates_wallet_witness :
    (handleWalletOperation (quietEnv 1) DB.empty ⟨7, Deposit, 1000⟩).1
      = .json ⟨7, 1000⟩ ∧
    GetWalletBalanceSimple false
        (handleWalletOperation (quietEnv 1) DB.empty ⟨7, Deposit, 1000⟩).2 7
      = .ok 1000 :=
  have h := deposit_creates_wallet (quietEnv 1) DB.empty ⟨7, Deposit, 1000⟩
    (by decide) (by decide) (by decide) (by decide)
  ⟨h.1, h.2.2⟩

/-! ## Withdrawals on an unknown wallet -/

/-- C7 (amended): when wallet `W` does not exist, a valid Withdraw request on `W` creates
nothing: the tables are as before, a balance query for `W` is still not-found and, the
tables satisfying the constraints of the schema, `W` has no audit record. When the
transaction begins and the locked read succeeds the response is `404`; when one of them
fails it is `500`. -/
theorem withdraw_never_creates (env : Env) (db : DB) (req : WalletRequest)
    (hnone : db.findWallet req.WalletID = none)
    (hvalid : req.Validate = none) (hop : req.OperationType = Withdraw) :
    (handleWalletOperation env db req).2 = db ∧
    handleGetWalletBalance false (handleWalletOperation env db req).2 req.WalletID
      = .error "Wallet not found" StatusNotFound ∧
    (db.Consistent → (handleWalletOperation env db req).2.auditTrail req.WalletID = []) ∧
    (env.beginFails = false → env.selectFails = false →
      (handleWalletOperation env db req).1
        = .error "Wallet not found for withdrawal operation" StatusNotFound) ∧
    (env.beginFails = true ∨ env.selectFails = true →
      (handleWalletOperation env db req).1
        = .error "Internal server error" StatusInternalServerError) := by
  have hfound : env.beginFails = false → env.selectFails = false →
      handleWalletOperation env db req
        = (.error "Wallet not found for withdrawal operation" StatusNotFound, db) := by
    intro hb hs
    simp [handleWalletOperation, hvalid, Begin, hb, GetWallet, hs, hnone, hop]
  have hsame : (handleWalletOperation env db req).2 = db := by
    by_cases hdown : env.beginFails = true ∨ env.selectFails = true
    · rw [handleWalletOperation_store_down env db req hvalid hdown]
    · have hb : env.beginFails = false := by
        cases h : env.beginFails with
        | true => exact absurd (Or.inl h) hdown
        | false => rfl
      have hs : env.selectFails = false := by
        cases h : env.selectFails with
        | true => exact absurd (Or.inr h) hdown
        | false => rfl
      rw [hfound hb hs]
  refine ⟨hsame, ?_, ?_, ?_, ?_⟩
  · rw [hsame]; simp [handleGetWalletBalance, GetWalletBalanceSimple, hnone]
  · intro hcons
    rw [hsame]
    exact auditTrail_eq_nil_of_unknown db req.WalletID hcons hnone
  · intro hb hs; rw [hfound hb hs]
  · intro hdown
    rw [handleWalletOperation_store_down env db req hvalid hdown]

/-- C7 at scenario 5 of the specification: a withdrawal of 50 on the unknown wallet 8 is
answered with 404 and a balance query for 8 is still not-found. -/
theorem withdraw_never_creates_witness :
    (handleWalletOperation (quietEnv 3) scenarioTables ⟨8, Withdraw, 50⟩).1
      = .error "Wallet not found for withdrawal operation" StatusNotFound ∧
    handleGetWalletBalance false
        (handleWalletOperation (quietEnv 3) scenarioTables ⟨8, Withdraw, 50⟩).2 8
      = .error "Wallet not found" StatusNotFound ∧
    (handleWalletOperation (quietEnv 3) scenarioTables ⟨8, Withdraw, 50⟩).2.auditTrail 8
      = [] :=
  have h := withdraw_never_creates (quietEnv 3) scenarioTables ⟨8, Withdraw, 50⟩
    (by decide) (by decide) (by decide)
  ⟨h.2.2.2.1 rfl rfl, h.2.1, h.2.2.1 (by decide)⟩

/-- C7 as stated fails: the valid withdrawal of 50 on the unknown wallet 8 is answered with
`500`, not with `404`, when the locked read fails in the connection. -/
theorem withdraw_not_found_counterexample :
    scenarioTables.findWallet 8 = none ∧
    (⟨8, Withdraw, 50⟩ : WalletRequest).Validate = none ∧
    (handleWalletOperation { quietEnv 3 with selectFails := true } scenarioTables
        ⟨8, Withdraw, 50⟩).1.status = 500 := by
  decide

/-! ## Sequences of requests -/

/-- C10: whenever the handler ends with an error outcome (any status other than `200`:
validation failure, wallet not found, insufficient balance, failure of begin, locked read,
create, update, audit insert or commit), the committed tables after the call are the
committed tables before it. -/
theorem error_leaves_tables_unchanged (env : Env) (db : DB) (req : WalletRequest)
    (herr : (handleWalletOperation env db req).1.status ≠ 200) :
    (handleWalletOperation env db req).2 = db :=
  handleWalletOperation_error_unchanged env db req herr

/-- C10 at a deposit whose `Commit` fails after the balance update and the audit insert
were made inside the transaction. -/
theorem error_leaves_tables_unchanged_witness :
    (handleWalletOperation { quietEnv 3 with commitFails := true } scenarioTables
        ⟨7, Deposit, 10⟩).1.status = 500 ∧
    (handleWalletOperation { quietEnv 3 with commitFails := true } scenarioTables
        ⟨7, Deposit, 10⟩).2 = scenarioTables :=
  ⟨by decide,
   error_leaves_tables_unchanged { quietEnv 3 with commitFails := true } scenarioTables
     ⟨7, Deposit, 10⟩ (by decide)⟩

/-! ## Frame: other wallets are not touched -/

theorem find?_map_updateRow_other (env : Env) (walletID key : UUID) (nb : I64)
    (hne : walletID ≠ key) (l : List Wallet) :
    (l.map (updateRow env walletID nb)).find? (fun w => w.ID = key)
      = l.find? (fun w => w.ID = key) := by
  induction l with
  | nil => rfl
  | cons a l ih =>
    simp only [List.map_cons, List.find?_cons, updateRow_ID]
    by_cases hk : a.ID = key
    · have hna : ¬ a.ID = walletID := fun h => hne (h.symm.trans hk)
      have hrow : updateRow env walletID nb a = a := by
        unfold updateRow; rw [if_neg hna]
      simp only [hk, decide_True, hrow]
    · simp only [hk, decide_False]
      exact ih

theorem committedTables_findWallet_other (env : Env) (tx : DB) (walletID key : UUID)
    (nb : I64) (req : WalletRequest) (hne : walletID ≠ key) :
    (committedTables env tx walletID nb req).findWallet key = tx.findWallet key := by
  simp only [committedTables, DB.findWallet]
  exact find?_map_updateRow_other env walletID key nb hne tx.wallets

theorem findWallet_append_other (db : DB) (w : Wallet) (key : UUID) (hne : w.ID ≠ key) :
    ({ db with wallets := db.wallets ++ [w] } : DB).findWallet key = db.findWallet key := by
  simp only [DB.findWallet, List.find?_append]
  cases db.wallets.find? (fun v => decide (v.ID = key)) with
  | some v => rfl
  | none => simp [hne]

theorem handleWalletOperation_other_wallet (env : Env) (db : DB) (req : WalletRequest)
    (key : UUID) (hne : req.WalletID ≠ key) :
    (handleWalletOperation env db req).2.findWallet key = db.findWallet key ∧
    (handleWalletOperation env db req).2.auditTrail key = db.auditTrail key := by
  rcases handleWalletOperation_cases env db req with
    ⟨_, hsame⟩ | ⟨_, tx, wlt, nb, hwhere, _, _, _, hrun⟩
  · rw [hsame]; exact ⟨rfl, rfl⟩
  · rw [hrun]
    have hfw := committedTables_findWallet_other env tx req.WalletID key nb req hne
    have hat := auditTrail_committedTables_other env tx req.WalletID key nb req hne
    rcases hwhere with ⟨_, htx⟩ | ⟨_, _, hwlt, htx⟩
    · subst htx
      exact ⟨hfw, hat⟩
    · subst htx
      have hid : wlt.ID ≠ key := by rw [hwlt]; exact hne
      refine ⟨?_, ?_⟩
      · exact hfw.trans (findWallet_append_other db wlt key hid)
      · exact hat

/-- C17: for every store, every request on wallet `W` and every other identifier `V ≠ W`,
after the call (committed or failed) the row of `V` in `wallets` (its existence and its
committed balance) and the audit trail of `V` are what they were before. -/
theorem operation_touches_only_its_wallet (env : Env) (db : DB) (req : WalletRequest)
    (V : UUID) (hne : V ≠ req.WalletID) :
    (handleWalletOperation env db req).2.findWallet V = db.findWallet V ∧
    ((handleWalletOperation env db req).2.findWallet V).isSome
      = (db.findWallet V).isSome ∧
    GetWalletBalanceSimple false (handleWalletOperation env db req).2 V
      = GetWalletBalanceSimple false db V ∧
    (handleWalletOperation env db req).2.auditTrail V = db.auditTrail V := by
  obtain ⟨hfw, hat⟩ := handleWalletOperation_other_wallet env db req V (fun h => hne h.symm)
  refine ⟨hfw, by rw [hfw], ?_, hat⟩
  simp only [GetWalletBalanceSimple, hfw]

/-- C17 at a committed deposit on wallet 8 and at a failed withdrawal on wallet 8: wallet 7
of the scenario keeps its balance 700 and its two audit rows. -/
theorem operation_touches_only_its_wallet_witness :
    GetWalletBalanceSimple false
        (handleWalletOperation (quietEnv 3) scenarioTables ⟨8, Deposit, 5⟩).2 7
      = GetWalletBalanceSimple false scenarioTables 7 ∧
    (handleWalletOperation (quietEnv 3) scenarioTables ⟨8, Withdraw, 5⟩).2.auditTrail 7
      = scenarioTables.auditTrail 7 :=
  ⟨(operation_touches_only_its_wallet (quietEnv 3) scenarioTables ⟨8, Deposit, 5⟩ 7
      (by decide)).2.2.1,
   (operation_touches_only_its_wallet (quietEnv 3) scenarioTables ⟨8, Withdraw, 5⟩ 7
      (by decide)).2.2.2⟩

/-! ## Balance and audit row are committed together -/

theorem applyOperation_eq_none_iff (b : I64) (req : WalletRequest) :
    applyOperation b req = none ↔
      req.OperationType = Withdraw ∧ b.val < req.Amount.val := by
  have hne : Withdraw ≠ Deposit := by decide
  unfold applyOperation
  by_cases hd : req.OperationType = Deposit
  · simp [hd, hne.symm]
  · by_cases hw : req.OperationType = Withdraw
    · by_cases hlt : b.val < req.Amount.val
      · simp [hw, hne, hlt]
      · simp [hw, hne, hlt]
    · simp [hd, hw]

theorem applyOperation_ne_self (b nb : I64) (req : WalletRequest)
    (hvalid : req.Validate = none) (h : applyOperation b req = some nb) : nb ≠ b := by
  obtain ⟨_, hpos, hty⟩ := (Validate_eq_none_iff req).1 hvalid
  have hb := b.inRange
  have ha := req.Amount.inRange
  intro heq
  have hval : nb.val = b.val := by rw [heq]
  rcases hty with hop | hop
  · have hop' : req.OperationType = Deposit := hop
    rw [applyOperation_deposit b req hop'] at h
    cases h
    simp only [I64.add, I64.wrap] at hval
    omega
  · have hop' : req.OperationType = Withdraw := hop
    rw [applyOperation_withdraw b req hop'] at h
    by_cases hlt : b.val < req.Amount.val
    · rw [if_pos hlt] at h; cases h
    · rw [if_neg hlt] at h
      cases h
      simp only [I64.sub, I64.wrap] at hval
      omega

theorem committedTables_transactions (env : Env) (tx : DB) (nb : I64) (req : WalletRequest) :
    (committedTables env tx req.WalletID nb req).transactions
      = tx.transactions ++ [auditRecord env req] := rfl

theorem handleWalletOperation_committed (env : Env) (db : DB) (req : WalletRequest)
    (h200 : (handleWalletOperation env db req).1.status = 200) :
    req.Validate = none ∧
    (handleWalletOperation env db req).2.transactions
      = db.transactions ++ [auditRecord env req] ∧
    (handleWalletOperation env db req).2.auditTrail req.WalletID
      = db.auditTrail req.WalletID ++ [auditRecord env req] ∧
    (handleWalletOperation env db req).2.balanceOf req.WalletID
      ≠ db.balanceOf req.WalletID := by
  rcases handleWalletOperation_cases env db req with
    ⟨hne, _⟩ | ⟨hvalid, tx, wlt, nb, hwhere, happly, _, hex, hrun⟩
  · exact absurd h200 hne
  · rw [hrun]
    have htr : tx.transactions = db.transactions := by
      rcases hwhere with ⟨_, htx⟩ | ⟨_, _, _, htx⟩ <;> rw [htx]
    have hat : tx.auditTrail req.WalletID = db.auditTrail req.WalletID := by
      simp only [DB.auditTrail, htr]
    refine ⟨hvalid, ?_, ?_, ?_⟩
    · show (committedTables env tx req.WalletID nb req).transactions = _
      rw [committedTables_transactions, htr]
    · show (committedTables env tx req.WalletID nb req).auditTrail req.WalletID = _
      rw [auditTrail_committedTables_same, hat]; rfl
    · show (committedTables env tx req.WalletID nb req).balanceOf req.WalletID ≠ _
      cases hf : tx.findWallet req.WalletID with
      | none => rw [hf] at hex; cases hex
      | some u =>
        have hnew := committedTables_findWallet env tx req.WalletID nb req u hf
        simp only [DB.balanceOf, hnew, Option.map_some']
        rcases hwhere with ⟨hfound, htx⟩ | ⟨hnone, _, _, _⟩
        · subst htx
          rw [hfound, Option.map_some']
          intro heq
          exact applyOperation_ne_self wlt.Balance nb req hvalid happly (Option.some.inj heq)
        · rw [hnone]
          intro heq
          cases heq

/-- C16: a request the handler commits appends exactly one row to the audit trail of its
wallet, carrying the wallet identifier, the operation type and the strictly positive amount
of the request, and leaves every earlier row of `transactions` in place; a request it does
not commit changes nothing; and in every case the committed balance of the wallet changes
exactly when that row is appended. -/
theorem balance_and_audit_commit_together (env : Env) (db : DB) (req : WalletRequest) :
    ((handleWalletOperation env db req).1.status = 200 →
      (handleWalletOperation env db req).2.transactions
        = db.transactions ++ [auditRecord env req] ∧
      (handleWalletOperation env db req).2.auditTrail req.WalletID
        = db.auditTrail req.WalletID ++ [auditRecord env req] ∧
      (auditRecord env req).WalletID = req.WalletID ∧
      (auditRecord env req).OpType = req.OperationType ∧
      (auditRecord env req).Amount = req.Amount ∧
      0 < (auditRecord env req).Amount.val) ∧
    ((handleWalletOperation env db req).1.status ≠ 200 →
      (handleWalletOperation env db req).2 = db) ∧
    ((handleWalletOperation env db req).2.balanceOf req.WalletID ≠ db.balanceOf req.WalletID
      ↔ (handleWalletOperation env db req).2.transactions
          = db.transactions ++ [auditRecord env req]) := by
  refine ⟨?_, handleWalletOperation_error_unchanged env db req, ?_⟩
  · intro h200
    obtain ⟨hvalid, htr, hat, _⟩ := handleWalletOperation_committed env db req h200
    exact ⟨htr, hat, rfl, rfl, rfl, ((Validate_eq_none_iff req).1 hvalid).2.1⟩
  · by_cases h200 : (handleWalletOperation env db req).1.status = 200
    · obtain ⟨_, htr, _, hbal⟩ := handleWalletOperation_committed env db req h200
      exact ⟨fun _ => htr, fun _ => hbal⟩
    · have hsame := handleWalletOperation_error_unchanged env db req h200
      rw [hsame]
      constructor
      · intro h; exact absurd rfl h
      · intro h
        have hlen := congrArg List.length h
        simp at hlen

/-- C16 at the committed withdrawal of 300 of scenario 2: the trail of wallet 7 is its
trail after scenario 1 followed by the row of the withdrawal. -/
theorem balance_and_audit_commit_together_witness :
    (handleWalletOperation (quietEnv 2)
        (runRequests DB.empty [(quietEnv 1, ⟨7, Deposit, 1000⟩)]) ⟨7, Withdraw, 300⟩).2.auditTrail 7
      = (runRequests DB.empty [(quietEnv 1, ⟨7, Deposit, 1000⟩)]).auditTrail 7
          ++ [⟨2, 7, Withdraw, 300, 0⟩] :=
  ((balance_and_audit_commit_together (quietEnv 2)
      (runRequests DB.empty [(quietEnv 1, ⟨7, Deposit, 1000⟩)]) ⟨7, Withdraw, 300⟩).1
    (by decide)).2.1

/-! ## Status codes of the operation endpoint -/

theorem applyAndCommit_insufficient (env : Env) (db tx : DB) (wlt : Wallet)
    (req : WalletRequest) (h : applyOperation wlt.Balance req = none) :
    applyAndCommit env db tx wlt req = (.error "Insufficient balance" StatusBadRequest, db) := by
  simp only [applyAndCommit, h]

theorem applyAndCommit_status_of_some (env : Env) (db tx : DB) (wlt : Wallet)
    (req : WalletRequest) (nb : I64) (h : applyOperation wlt.Balance req = some nb) :
    (applyAndCommit env db tx wlt req).1.status = 200 ∨
    (applyAndCommit env db tx wlt req).1.status = 500 := by
  simp only [applyAndCommit, h]
  repeat' split
  all_goals simp [Response.status, StatusInternalServerError]

theorem handleWalletOperation_invalid (env : Env) (db : DB) (req : WalletRequest)
    (err : ValidationError) (h : req.Validate = some err) :
    handleWalletOperation env db req
      = (.error ("Validation error: " ++ err.Error) StatusBadRequest, db) := by
  simp only [handleWalletOperation, h]

theorem handleWalletOperation_unknown_withdraw (env : Env) (db : DB) (req : WalletRequest)
    (hvalid : req.Validate = none) (hb : env.beginFails = false)
    (hs : env.selectFails = false) (hnone : db.findWallet req.WalletID = none)
    (hop : req.OperationType = Withdraw) :
    handleWalletOperation env db req
      = (.error "Wallet not found for withdrawal operation" StatusNotFound, db) := by
  simp [handleWalletOperation, hvalid, Begin, hb, GetWallet, hs, hnone, hop]

theorem handleWalletOperation_unknown_other (env : Env) (db : DB) (req : WalletRequest)
    (hvalid : req.Validate = none) (hb : env.beginFails = false)
    (hs : env.selectFails = false) (hnone : db.findWallet req.WalletID = none)
    (hop : req.OperationType ≠ Withdraw) :
    (handleWalletOperation env db req).1.status = 200 ∨
    (handleWalletOperation env db req).1.status = 500 := by
  have hdep : req.OperationType = Deposit := by
    rcases ((Validate_eq_none_iff req).1 hvalid).2.2 with h | h
    · exact h
    · exact absurd h hop
  by_cases hcr : env.createFails = true
  · right
    simp [handleWalletOperation, hvalid, Begin, hb, GetWallet, hs, hnone, hop,
      CreateWallet, hcr, Response.status, StatusInternalServerError]
  · have hcr' : env.createFails = false := by simpa using hcr
    have hstep : handleWalletOperation env db req
        = applyAndCommit env db { db with wallets := db.wallets ++ [newWallet env req.WalletID] }
            (newWallet env req.WalletID) req := by
      simp [handleWalletOperation, hvalid, Begin, hb, GetWallet, hs, hnone, hop,
        CreateWallet, hcr', newWallet]
    rw [hstep]
    exact applyAndCommit_status_of_some env db _ _ req _
      (applyOperation_deposit _ req hdep)

/-- The exits of the handler, by what decides them. -/
theorem handleWalletOperation_status (env : Env) (db : DB) (req : WalletRequest) :
    (req.Validate ≠ none ∧ (handleWalletOperation env db req).1.status = 400) ∨
    (req.Validate = none ∧ (env.beginFails = true ∨ env.selectFails = true) ∧
      (handleWalletOperation env db req).1.status = 500) ∨
    (req.Validate = none ∧ env.beginFails = false ∧ env.selectFails = false ∧
      (∃ w, db.findWallet req.WalletID = some w ∧ req.OperationType = Withdraw ∧
        w.Balance.val < req.Amount.val) ∧
      (handleWalletOperation env db req).1.status = 400) ∨
    (req.Validate = none ∧ env.beginFails = false ∧ env.selectFails = false ∧
      (∃ w, db.findWallet req.WalletID = some w ∧
        ¬ (req.OperationType = Withdraw ∧ w.Balance.val < req.Amount.val)) ∧
      ((handleWalletOperation env db req).1.status = 200 ∨
        (handleWalletOperation env db req).1.status = 500)) ∨
    (req.Validate = none ∧ env.beginFails = false ∧ env.selectFails = false ∧
      db.findWallet req.WalletID = none ∧ req.OperationType = Withdraw ∧
      (handleWalletOperation env db req).1.status = 404) ∨
    (req.Validate = none ∧ env.beginFails = false ∧ env.selectFails = false ∧
      db.findWallet req.WalletID = none ∧ req.OperationType ≠ Withdraw ∧
      ((handleWalletOperation env db req).1.status = 200 ∨
        (handleWalletOperation env db req).1.status = 500)) := by
  cases hvalid : req.Validate with
  | some err =>
    left
    refine ⟨by simp, ?_⟩
    rw [handleWalletOperation_invalid env db req err hvalid]; rfl
  | none =>
    right
    by_cases hdown : env.beginFails = true ∨ env.selectFails = true
    · left
      refine ⟨rfl, hdown, ?_⟩
      rw [handleWalletOperation_store_down env db req hvalid hdown]; rfl
    · right
      have hb : env.beginFails = false := by
        cases h : env.beginFails with
        | true => exact absurd (Or.inl h) hdown
        | false => rfl
      have hs : env.selectFails = false := by
        cases h : env.selectFails with
        | true => exact absurd (Or.inr h) hdown
        | false => rfl
      cases hf : db.findWallet req.WalletID with
      | some w =>
        have hstep := handleWalletOperation_found env db req w hvalid hb hs hf
        cases happly : applyOperation w.Balance req with
        | none =>
          left
          have hcond := (applyOperation_eq_none_iff w.Balance req).1 happly
          refine ⟨rfl, hb, hs, ⟨w, rfl, hcond.1, hcond.2⟩, ?_⟩
          rw [hstep, applyAndCommit_insufficient env db db w req happly]; rfl
        | some nb =>
          right; left
          have hcond : ¬ (req.OperationType = Withdraw ∧ w.Balance.val < req.Amount.val) := by
            intro h
            rw [(applyOperation_eq_none_iff w.Balance req).2 h] at happly
            cases happly
          refine ⟨rfl, hb, hs, ⟨w, rfl, hcond⟩, ?_⟩
          rw [hstep]
          exact applyAndCommit_status_of_some env db db w req nb happly
      | none =>
        right; right
        by_cases hop : req.OperationType = Withdraw
        · left
          refine ⟨rfl, hb, hs, rfl, hop, ?_⟩
          rw [handleWalletOperation_unknown_withdraw env db req hvalid hb hs hf hop]; rfl
        · right
          exact ⟨rfl, hb, hs, rfl, hop,
            handleWalletOperation_unknown_other env db req hvalid hb hs hf hop⟩

theorem valid_opType_length (req : WalletRequest) (hvalid : req.Validate = none) :
    req.OperationType.length ≤ 10 := by
  rcases ((Validate_eq_none_iff req).1 hvalid).2.2 with h | h <;> rw [h] <;> decide

theorem handleWalletOperation_no_store_failure (env : Env) (db : DB) (req : WalletRequest)
    (hok : env.NoStoreFailure db) : (handleWalletOperation env db req).1.status ≠ 500 := by
  obtain ⟨hb, hs, hcr, hu, hi, hc, hfresh⟩ := hok
  rcases handleWalletOperation_status env db req with
    ⟨_, h⟩ | ⟨_, hdown, _⟩ | ⟨_, _, _, _, h⟩ | ⟨hvalid, _, _, ⟨w, hf, hcond⟩, _⟩ |
    ⟨_, _, _, _, _, h⟩ | ⟨hvalid, _, _, hnone, hop, _⟩
  · omega
  · rcases hdown with h | h
    · rw [hb] at h; cases h
    · rw [hs] at h; cases h
  · omega
  · have hlen := valid_opType_length req hvalid
    cases happly : applyOperation w.Balance req with
    | none => exact absurd ((applyOperation_eq_none_iff w.Balance req).1 happly) hcond
    | some nb =>
      have hex : (db.findWallet w.ID).isSome = true := by
        rw [DB.findWallet_ID hf, hf]; rfl
      rw [handleWalletOperation_found env db req w hvalid hb hs hf,
        applyAndCommit_ok env db db w req nb happly hu hi hc hfresh hex hlen]
      simp [Response.status]
  · omega
  · have hlen := valid_opType_length req hvalid
    have hdep : req.OperationType = Deposit := by
      rcases ((Validate_eq_none_iff req).1 hvalid).2.2 with h | h
      · exact h
      · exact absurd h hop
    have hstep : handleWalletOperation env db req
        = applyAndCommit env db { db with wallets := db.wallets ++ [newWallet env req.WalletID] }
            (newWallet env req.WalletID) req := by
      simp [handleWalletOperation, hvalid, Begin, hb, GetWallet, hs, hnone, hop,
        CreateWallet, hcr, newWallet]
    have hfind : ({ db with wallets := db.wallets ++ [newWallet env req.WalletID] } : DB).findWallet
        (newWallet env req.WalletID).ID = some (newWallet env req.WalletID) := by
      simp only [DB.findWallet] at hnone ⊢
      exact find?_append_singleton_of_none db.wallets (newWallet env req.WalletID) hnone
    have hex : (({ db with wallets := db.wallets ++ [newWallet env req.WalletID] } : DB).findWallet
        (newWallet env req.WalletID).ID).isSome = true := by rw [hfind]; rfl
    rw [hstep, applyAndCommit_ok env db
      { db with wallets := db.wallets ++ [newWallet env req.WalletID] }
      (newWallet env req.WalletID) req _
      (applyOperation_deposit _ req hdep) hu hi hc hfresh hex hlen]
    simp [Response.status]

theorem applyAndCommit_200_flags (env : Env) (db tx : DB) (wlt : Wallet)
    (req : WalletRequest) (h200 : (applyAndCommit env db tx wlt req).1.status = 200) :
    env.updateFails = false ∧ env.insertFails = false ∧ env.commitFails = false := by
  cases happly : applyOperation wlt.Balance req with
  | none =>
    rw [applyAndCommit_insufficient env db tx wlt req happly] at h200
    simp [Response.status, StatusBadRequest] at h200
  | some nb =>
    have hu : env.updateFails = false := by
      cases h : env.updateFails with
      | false => rfl
      | true =>
        simp [applyAndCommit, happly, UpdateWalletBalance, h, Response.status,
          StatusInternalServerError] at h200
    have hi : env.insertFails = false := by
      cases h : env.insertFails with
      | false => rfl
      | true =>
        simp [applyAndCommit, happly, UpdateWalletBalance, hu, AddTransactionRecord, h,
          Response.status, StatusInternalServerError] at h200
    have hc : env.commitFails = false := by
      cases h : env.commitFails with
      | false => rfl
      | true =>
        simp only [applyAndCommit, happly, UpdateWalletBalance, hu, AddTransactionRecord,
          hi, Commit, h] at h200
        revert h200
        simp only [Bool.false_eq_true, if_false, if_true, false_or]
        split <;> simp [Response.status, StatusInternalServerError]
    exact ⟨hu, hi, hc⟩

theorem handleWalletOperation_200_flags (env : Env) (db : DB) (req : WalletRequest)
    (h200 : (handleWalletOperation env db req).1.status = 200) :
    env.beginFails = false ∧ env.selectFails = false ∧ env.updateFails = false ∧
    env.insertFails = false ∧ env.commitFails = false ∧
    (db.findWallet req.WalletID = none → env.createFails = false) := by
  rcases handleWalletOperation_status env db req with
    ⟨_, h⟩ | ⟨_, _, h⟩ | ⟨_, _, _, _, h⟩ | ⟨hvalid, hb, hs, ⟨w, hf, _⟩, _⟩ |
    ⟨_, _, _, _, _, h⟩ | ⟨hvalid, hb, hs, hnone, hop, _⟩
  · omega
  · omega
  · omega
  · rw [handleWalletOperation_found env db req w hvalid hb hs hf] at h200
    obtain ⟨hu, hi, hc⟩ := applyAndCommit_200_flags env db db w req h200
    refine ⟨hb, hs, hu, hi, hc, ?_⟩
    intro h; rw [hf] at h; cases h
  · omega
  · have hcr : env.createFails = false := by
      cases h : env.createFails with
      | false => rfl
      | true =>
        simp [handleWalletOperation, hvalid, Begin, hb, GetWallet, hs, hnone, hop,
          CreateWallet, h, Response.status, StatusInternalServerError] at h200
    have hstep : handleWalletOperation env db req
        = applyAndCommit env db { db with wallets := db.wallets ++ [newWallet env req.WalletID] }
            (newWallet env req.WalletID) req := by
      simp [handleWalletOperation, hvalid, Begin, hb, GetWallet, hs, hnone, hop,
        CreateWallet, hcr, newWallet]
    rw [hstep] at h200
    obtain ⟨hu, hi, hc⟩ := applyAndCommit_200_flags env db _ _ req h200
    exact ⟨hb, hs, hu, hi, hc, fun _ => hcr⟩

/-- C14: the operation endpoint answers a decoded request with 200, 400, 404 or 500 and
nothing else: 200 exactly when the operation committed (its audit row is in the committed
tables); 400 exactly when validation fails or the transaction began, the locked read found
the wallet and a withdrawal exceeds its balance; 404 exactly when the transaction began,
the locked read found no wallet and the request is a withdrawal; 500 for a failure of begin
or of the locked read, and otherwise only when some store operation failed; a request
answered with 200 met no failure of begin, locked read, create, update, audit insert or
commit; every status other than 200 leaves the committed tables as they were. -/
theorem outcome_status_mapping (env : Env) (db : DB) (req : WalletRequest) :
    ((handleWalletOperation env db req).1.status = 200 ∨
      (handleWalletOperation env db req).1.status = 400 ∨
      (handleWalletOperation env db req).1.status = 404 ∨
      (handleWalletOperation env db req).1.status = 500) ∧
    ((handleWalletOperation env db req).1.status = 200 ↔
      (handleWalletOperation env db req).2.transactions
        = db.transactions ++ [auditRecord env req]) ∧
    ((handleWalletOperation env db req).1.status = 400 ↔
      req.Validate ≠ none ∨
      (req.Validate = none ∧ env.beginFails = false ∧ env.selectFails = false ∧
        ∃ w, db.findWallet req.WalletID = some w ∧ req.OperationType = Withdraw ∧
          w.Balance.val < req.Amount.val)) ∧
    ((handleWalletOperation env db req).1.status = 404 ↔
      req.Validate = none ∧ env.beginFails = false ∧ env.selectFails = false ∧
        db.findWallet req.WalletID = none ∧ req.OperationType = Withdraw) ∧
    (req.Validate = none → env.beginFails = true ∨ env.selectFails = true →
      (handleWalletOperation env db req).1.status = 500) ∧
    ((handleWalletOperation env db req).1.status = 500 →
      req.Validate = none ∧ ¬ env.NoStoreFailure db) ∧
    ((handleWalletOperation env db req).1.status = 200 →
      env.beginFails = false ∧ env.selectFails = false ∧ env.updateFails = false ∧
      env.insertFails = false ∧ env.commitFails = false ∧
      (db.findWallet req.WalletID = none → env.createFails = false)) ∧
    ((handleWalletOperation env db req).1.status ≠ 200 →
      (handleWalletOperation env db req).2 = db) := by
  have hst := handleWalletOperation_status env db req
  refine ⟨?_, ?_, ?_, ?_, ?_, ?_, handleWalletOperation_200_flags env db req,
    handleWalletOperation_error_unchanged env db req⟩
  · rcases hst with ⟨_, h⟩ | ⟨_, _, h⟩ | ⟨_, _, _, _, h⟩ | ⟨_, _, _, _, h⟩ |
      ⟨_, _, _, _, _, h⟩ | ⟨_, _, _, _, _, h⟩
    · exact Or.inr (Or.inl h)
    · exact Or.inr (Or.inr (Or.inr h))
    · exact Or.inr (Or.inl h)
    · rcases h with h | h
      · exact Or.inl h
      · exact Or.inr (Or.inr (Or.inr h))
    · exact Or.inr (Or.inr (Or.inl h))
    · rcases h with h | h
      · exact Or.inl h
      · exact Or.inr (Or.inr (Or.inr h))
  · constructor
    · intro h200
      exact (handleWalletOperation_committed env db req h200).2.1
    · intro htr
      by_contra hne
      rw [handleWalletOperation_error_unchanged env db req hne] at htr
      have hlen := congrArg List.length htr
      simp at hlen
  · constructor
    · intro h400
      rcases hst with ⟨hv, _⟩ | ⟨_, _, h⟩ | ⟨hv, hb, hs, hw, _⟩ | ⟨_, _, _, _, h⟩ |
        ⟨_, _, _, _, _, h⟩ | ⟨_, _, _, _, _, h⟩
      · exact Or.inl hv
      · omega
      · exact Or.inr ⟨hv, hb, hs, hw⟩
      · rcases h with h | h <;> omega
      · omega
      · rcases h with h | h <;> omega
    · intro hc
      rcases hc with hinv | ⟨hv, hb, hs, w, hf, hop, hlt⟩
      · cases hval : req.Validate with
        | none => exact absurd hval hinv
        | some err => rw [handleWalletOperation_invalid env db req err hval]; rfl
      · rw [handleWalletOperation_found env db req w hv hb hs hf,
          applyAndCommit_insufficient env db db w req
            ((applyOperation_eq_none_iff w.Balance req).2 ⟨hop, hlt⟩)]
        rfl
  · constructor
    · intro h404
      rcases hst with ⟨_, h⟩ | ⟨_, _, h⟩ | ⟨_, _, _, _, h⟩ | ⟨_, _, _, _, h⟩ |
        ⟨hv, hb, hs, hnone, hop, _⟩ | ⟨_, _, _, _, _, h⟩
      · omega
      · omega
      · omega
      · rcases h with h | h <;> omega
      · exact ⟨hv, hb, hs, hnone, hop⟩
      · rcases h with h | h <;> omega
    · rintro ⟨hv, hb, hs, hnone, hop⟩
      rw [handleWalletOperation_unknown_withdraw env db req hv hb hs hnone hop]; rfl
  · intro hv hdown
    rw [handleWalletOperation_store_down env db req hv hdown]; rfl
  · intro h500
    refine ⟨?_, fun hok => handleWalletOperation_no_store_failure env db req hok h500⟩
    cases hval : req.Validate with
    | none => rfl
    | some err =>
      rw [handleWalletOperation_invalid env db req err hval] at h500
      simp [Response.status, StatusBadRequest] at h500

/-- C14 at three requests on the tables of scenario 2: an over-drawing withdrawal is
answered with 400, a withdrawal on an unknown wallet with 404, a deposit whose audit insert
fails with 500. -/
theorem outcome_status_mapping_witness :
    (handleWalletOperation (quietEnv 3) scenarioTables ⟨7, Withdraw, 1000⟩).1.status = 400 ∧
    (handleWalletOperation (quietEnv 3) scenarioTables ⟨8, Withdraw, 50⟩).1.status = 404 ∧
    (handleWalletOperation { quietEnv 3 with selectFails := true } scenarioTables
        ⟨7, Deposit, 10⟩).1.status = 500 :=
  ⟨(outcome_status_mapping (quietEnv 3) scenarioTables ⟨7, Withdraw, 1000⟩).2.2.1.2
      (Or.inr ⟨by decide, rfl, rfl, ⟨7, 700, 0, 0⟩, by decide, by decide, by decide⟩),
   (outcome_status_mapping (quietEnv 3) scenarioTables ⟨8, Withdraw, 50⟩).2.2.2.1.2
      ⟨by decide, rfl, rfl, by decide, by decide⟩,
   (outcome_status_mapping { quietEnv 3 with selectFails := true } scenarioTables
      ⟨7, Deposit, 10⟩).2.2.2.2.1 (by decide) (Or.inr rfl)⟩

/-! ## Balance query -/

theorem runRequests_other_wallet (others : List (Env × WalletRequest)) (db : DB) (key : UUID)
    (hothers : ∀ p ∈ others, p.2.WalletID ≠ key) :
    (runRequests db others).findWallet key = db.findWallet key ∧
    (runRequests db others).auditTrail key = db.auditTrail key := by
  induction others generalizing db with
  | nil => exact ⟨rfl, rfl⟩
  | cons a rest ih =>
    obtain ⟨env, req⟩ := a
    have hhead : req.WalletID ≠ key := hothers (env, req) (List.mem_cons_self _ _)
    have htail : ∀ p ∈ rest, p.2.WalletID ≠ key :=
      fun p hp => hothers p (List.mem_cons_of_mem _ hp)
    obtain ⟨h1, h2⟩ := handleWalletOperation_other_wallet env db req key hhead
    obtain ⟨h3, h4⟩ := ih (handleWalletOperation env db req).2 htail
    exact ⟨h3.trans h1, h4.trans h2⟩

theorem handleWalletOperation_json_balance (env : Env) (db : DB) (req : WalletRequest)
    (body : WalletResponse) (hresp : (handleWalletOperation env db req).1 = .json body) :
    body.WalletID = req.WalletID ∧
    (handleWalletOperation env db req).2.balanceOf req.WalletID = some body.Balance := by
  have h200 : (handleWalletOperation env db req).1.status = 200 := by rw [hresp]; rfl
  rcases handleWalletOperation_cases env db req with
    ⟨hne, _⟩ | ⟨_, tx, wlt, nb, _, _, _, hex, hrun⟩
  · exact absurd h200 hne
  · rw [hrun] at hresp
    have hbody : body = { WalletID := req.WalletID, Balance := nb } := by
      have h := Response.json.inj hresp
      exact h.symm
    rw [hrun, hbody]
    refine ⟨rfl, ?_⟩
    cases hf : tx.findWallet req.WalletID with
    | none => rw [hf] at hex; cases hex
    | some u =>
      show (committedTables env tx req.WalletID nb req).balanceOf req.WalletID = some nb
      simp only [DB.balanceOf, committedTables_findWallet env tx req.WalletID nb req u hf,
        Option.map_some']

theorem handleGetWalletBalance_selectFails (db : DB) (walletID : UUID) :
    handleGetWalletBalance true db walletID
      = .error "Internal server error" StatusInternalServerError := by
  simp [handleGetWalletBalance, GetWalletBalanceSimple]

theorem handleGetWalletBalance_of_balanceOf (db : DB) (walletID : UUID) (b : I64)
    (h : db.balanceOf walletID = some b) :
    handleGetWalletBalance false db walletID = .json { WalletID := walletID, Balance := b } := by
  unfold DB.balanceOf at h
  cases hf : db.findWallet walletID with
  | none => rw [hf] at h; cases h
  | some w =>
    rw [hf] at h
    have hb : w.Balance = b := Option.some.inj h
    simp [handleGetWalletBalance, GetWalletBalanceSimple, hf, hb]

theorem handleGetWalletBalance_unknown (db : DB) (walletID : UUID)
    (h : db.findWallet walletID = none) :
    handleGetWalletBalance false db walletID = .error "Wallet not found" StatusNotFound := by
  simp [handleGetWalletBalance, GetWalletBalanceSimple, h]

/-- C13 (amended): when the handler answers a request on wallet `W` with the JSON body
`{walletId, balance: b}`, then `walletId` is `W` and, after any operations on other
wallets, a balance query for `W` whose `SELECT` does not fail returns `{W, b}`; a balance
query for an identifier that does not exist returns 404 when its `SELECT` does not fail;
a balance query whose `SELECT` fails returns 500. -/
theorem balance_query_reflects_operation (env : Env) (db : DB) (req : WalletRequest)
    (body : WalletResponse) (others : List (Env × WalletRequest))
    (hresp : (handleWalletOperation env db req).1 = .json body)
    (hothers : ∀ p ∈ others, p.2.WalletID ≠ req.WalletID) :
    body.WalletID = req.WalletID ∧
    handleGetWalletBalance false
        (runRequests (handleWalletOperation env db req).2 others) req.WalletID
      = .json { WalletID := req.WalletID, Balance := body.Balance } ∧
    (∀ (tables : DB) (V : UUID), tables.findWallet V = none →
      handleGetWalletBalance false tables V = .error "Wallet not found" StatusNotFound) ∧
    (∀ (tables : DB) (V : UUID),
      handleGetWalletBalance true tables V
        = .error "Internal server error" StatusInternalServerError) := by
  obtain ⟨hid, hbal⟩ := handleWalletOperation_json_balance env db req body hresp
  refine ⟨hid, ?_, handleGetWalletBalance_unknown, handleGetWalletBalance_selectFails⟩
  apply handleGetWalletBalance_of_balanceOf
  unfold DB.balanceOf at hbal ⊢
  rw [(runRequests_other_wallet others _ req.WalletID hothers).1]
  exact hbal

/-- C13 at scenarios 1 and 5 of the specification: after the deposit of 1000 on the unknown
wallet 7 and a deposit on wallet 8, the query for 7 returns balance 1000. -/
theorem balance_query_reflects_operation_witness :
    handleGetWalletBalance false
        (runRequests (handleWalletOperation (quietEnv 1) DB.empty ⟨7, Deposit, 1000⟩).2
          [(quietEnv 2, ⟨8, Deposit, 5⟩)]) 7
      = .json ⟨7, 1000⟩ :=
  (balance_query_reflects_operation (quietEnv 1) DB.empty ⟨7, Deposit, 1000⟩ ⟨7, 1000⟩
    [(quietEnv 2, ⟨8, Deposit, 5⟩)] (by decide) (by decide)).2.1

/-- C13 as stated fails: after the committed deposit of 1000 on wallet 7, answered with
balance 1000, a balance query for 7 whose `SELECT` fails in the connection is answered with
`500` and no balance. -/
theorem balance_query_counterexample :
    (handleWalletOperation (quietEnv 1) DB.empty ⟨7, Deposit, 1000⟩).1 = .json ⟨7, 1000⟩ ∧
    handleGetWalletBalance true
        (handleWalletOperation (quietEnv 1) DB.empty ⟨7, Deposit, 1000⟩).2 7
      = .error "Internal server error" StatusInternalServerError := by
  decide

/-! ## Order of serialization -/

theorem handleWalletOperation_ok_found (env : Env) (db : DB) (req : WalletRequest)
    (w : Wallet) (nb : I64) (hw : db.findWallet req.WalletID = some w)
    (hvalid : req.Validate = none) (hok : env.NoStoreFailure db)
    (happly : applyOperation w.Balance req = some nb) :
    (handleWalletOperation env db req).1
      = .json { WalletID := req.WalletID, Balance := nb } ∧
    (handleWalletOperation env db req).2.findWallet req.WalletID
      = some { w with Balance := nb, UpdatedAt := env.updateTime } := by
  obtain ⟨hb, hs, _, hu, hi, hc, hfresh⟩ := hok
  have hid : w.ID = req.WalletID := DB.findWallet_ID hw
  have hex : (db.findWallet w.ID).isSome = true := by rw [hid, hw]; rfl
  have hlen := valid_opType_length req hvalid
  rw [handleWalletOperation_found env db req w hvalid hb hs hw,
    applyAndCommit_ok env db db w req nb happly hu hi hc hfresh hex hlen, hid]
  have hcommitted := committedTables_findWallet env db req.WalletID nb req w hw
  rw [hid] at hcommitted
  exact ⟨rfl, hcommitted⟩

theorem depositTotal_nonneg (reqs : List WalletRequest)
    (h : ∀ r ∈ reqs, r.Validate = none) : 0 ≤ depositTotal reqs := by
  induction reqs with
  | nil => simp [depositTotal]
  | cons a rest ih =>
    have ha := ((Validate_eq_none_iff a).1 (h a (List.mem_cons_self _ _))).2.1
    have ih' := ih (fun r hr => h r (List.mem_cons_of_mem _ hr))
    unfold depositTotal at ih' ⊢
    by_cases hd : a.OperationType = Deposit
    · simp only [List.filter_cons, hd, decide_True, if_true, List.map_cons, List.sum_cons]
      omega
    · simp only [List.filter_cons, hd, decide_False]
      exact ih'

theorem withdrawTotal_nonneg (reqs : List WalletRequest)
    (h : ∀ r ∈ reqs, r.Validate = none) : 0 ≤ withdrawTotal reqs := by
  induction reqs with
  | nil => simp [withdrawTotal]
  | cons a rest ih =>
    have ha := ((Validate_eq_none_iff a).1 (h a (List.mem_cons_self _ _))).2.1
    have ih' := ih (fun r hr => h r (List.mem_cons_of_mem _ hr))
    unfold withdrawTotal at ih' ⊢
    by_cases hd : a.OperationType = Withdraw
    · simp only [List.filter_cons, hd, decide_True, if_true, List.map_cons, List.sum_cons]
      omega
    · simp only [List.filter_cons, hd, decide_False]
      exact ih'

theorem totals_cons_deposit (a : WalletRequest) (rest : List WalletRequest)
    (h : a.OperationType = Deposit) :
    depositTotal (a :: rest) = a.Amount.val + depositTotal rest ∧
    withdrawTotal (a :: rest) = withdrawTotal rest := by
  have hne : Deposit ≠ Withdraw := by decide
  simp [depositTotal, withdrawTotal, List.filter_cons, h, hne]

theorem totals_cons_withdraw (a : WalletRequest) (rest : List WalletRequest)
    (h : a.OperationType = Withdraw) :
    depositTotal (a :: rest) = depositTotal rest ∧
    withdrawTotal (a :: rest) = a.Amount.val + withdrawTotal rest := by
  have hne : Withdraw ≠ Deposit := by decide
  simp [depositTotal, withdrawTotal, List.filter_cons, h, hne]

/-- Served one after another without store failure, valid requests on one existing wallet
whose withdrawals total at most the balance and whose deposits keep the balance below
`2^63` all succeed, and the balance ends at the start balance plus deposits minus
withdrawals. -/
theorem runRequests_serial (steps : List (Env × WalletRequest)) (db : DB) (W : UUID)
    (w : Wallet) (hw : db.findWallet W = some w)
    (hreq : ∀ r ∈ steps.map (fun p => p.2), r.Validate = none ∧ r.WalletID = W)
    (hwd : withdrawTotal (steps.map (fun p => p.2)) ≤ w.Balance.val)
    (hdep : w.Balance.val + depositTotal (steps.map (fun p => p.2)) < 9223372036854775808)
    (hquiet : NoStoreFailureRun db steps) :
    (∀ r ∈ runResponses db steps, r.status = 200) ∧
    ∃ w', (runRequests db steps).findWallet W = some w' ∧
      w'.Balance.val = w.Balance.val + depositTotal (steps.map (fun p => p.2))
        - withdrawTotal (steps.map (fun p => p.2)) := by
  induction steps generalizing db w with
  | nil =>
    refine ⟨fun r hr => ?_, w, hw, ?_⟩
    · cases hr
    · simp [depositTotal, withdrawTotal]
  | cons a rest ih =>
    obtain ⟨env, req⟩ := a
    obtain ⟨hok, hquiet'⟩ := hquiet
    have hrest : ∀ r ∈ rest.map (fun p => p.2), r.Validate = none ∧ r.WalletID = W :=
      fun r hr => hreq r (by simp only [List.map_cons]; exact List.mem_cons_of_mem _ hr)
    obtain ⟨hvalid, hW⟩ := hreq req (by simp)
    have hvals : ∀ r ∈ rest.map (fun p => p.2), r.Validate = none :=
      fun r hr => (hrest r hr).1
    have hdnn := depositTotal_nonneg _ hvals
    have hwnn := withdrawTotal_nonneg _ hvals
    obtain ⟨_, hpos, hty⟩ := (Validate_eq_none_iff req).1 hvalid
    have hbr := w.Balance.inRange
    have hw' : db.findWallet req.WalletID = some w := by rw [hW]; exact hw
    simp only [List.map_cons] at hwd hdep ⊢
    have key : ∀ nb : I64, applyOperation w.Balance req = some nb →
        withdrawTotal (rest.map (fun p => p.2)) ≤ nb.val →
        nb.val + depositTotal (rest.map (fun p => p.2)) < 9223372036854775808 →
        nb.val + depositTotal (rest.map (fun p => p.2))
            - withdrawTotal (rest.map (fun p => p.2))
          = w.Balance.val + depositTotal (req :: rest.map (fun p => p.2))
            - withdrawTotal (req :: rest.map (fun p => p.2)) →
        (∀ r ∈ runResponses db ((env, req) :: rest), r.status = 200) ∧
        ∃ w', (runRequests db ((env, req) :: rest)).findWallet W = some w' ∧
          w'.Balance.val = w.Balance.val + depositTotal (req :: rest.map (fun p => p.2))
            - withdrawTotal (req :: rest.map (fun p => p.2)) := by
      intro nb happly h1 h2 h3
      obtain ⟨hresp, hfind⟩ :=
        handleWalletOperation_ok_found env db req w nb hw' hvalid hok happly
      rw [hW] at hfind
      obtain ⟨hall, w', hfw, hbal⟩ := ih (handleWalletOperation env db req).2
        { w with Balance := nb, UpdatedAt := env.updateTime } hfind hrest h1 h2 hquiet'
      refine ⟨?_, w', hfw, ?_⟩
      · intro r hr
        simp only [runResponses, List.mem_cons] at hr
        rcases hr with hr | hr
        · rw [hr, hresp]; rfl
        · exact hall r hr
      · rw [hbal]; exact h3
    rcases hty with hop | hop
    · have hop' : req.OperationType = Deposit := hop
      obtain ⟨hd, hwt⟩ := totals_cons_deposit req (rest.map (fun p => p.2)) hop'
      have hval : (w.Balance.add req.Amount).val = w.Balance.val + req.Amount.val := by
        simp only [I64.add]
        apply I64.wrap_val_of_inRange
        omega
      apply key _ (applyOperation_deposit _ req hop') <;> omega
    · have hop' : req.OperationType = Withdraw := hop
      obtain ⟨hd, hwt⟩ := totals_cons_withdraw req (rest.map (fun p => p.2)) hop'
      have hnot : ¬ w.Balance.val < req.Amount.val := by omega
      have hval := I64.sub_val_of_le w.Balance req.Amount (by omega) (by omega)
      have happly : applyOperation w.Balance req = some (w.Balance.sub req.Amount) := by
        rw [applyOperation_withdraw _ _ hop', if_neg hnot]
      apply key _ happly <;> omega

/-- Served one after another, requests on one wallet that are all answered with `200` add
one audit row each to the trail of that wallet. -/
theorem runRequests_auditTrail_length (steps : List (Env × WalletRequest)) (db : DB)
    (W : UUID) (hreq : ∀ p ∈ steps, p.2.WalletID = W)
    (hall : ∀ r ∈ runResponses db steps, r.status = 200) :
    ((runRequests db steps).auditTrail W).length
      = (db.auditTrail W).length + steps.length := by
  induction steps generalizing db with
  | nil => rfl
  | cons a rest ih =>
    obtain ⟨env, req⟩ := a
    have hW : req.WalletID = W := hreq (env, req) (List.mem_cons_self _ _)
    have h200 : (handleWalletOperation env db req).1.status = 200 :=
      hall _ (by simp [runResponses])
    have htrail := (handleWalletOperation_committed env db req h200).2.2.1
    rw [hW] at htrail
    have hrest := ih (handleWalletOperation env db req).2
      (fun p hp => hreq p (List.mem_cons_of_mem _ hp))
      (fun r hr => hall r (by simp only [runResponses, List.mem_cons]; exact Or.inr hr))
    show ((runRequests (handleWalletOperation env db req).2 rest).auditTrail W).length = _
    rw [hrest, htrail]
    simp only [List.length_append, List.length_cons, List.length_nil]
    omega

theorem totals_perm (l₁ l₂ : List WalletRequest) (h : l₁.Perm l₂) :
    depositTotal l₁ = depositTotal l₂ ∧ withdrawTotal l₁ = withdrawTotal l₂ := by
  unfold depositTotal withdrawTotal
  exact ⟨((h.filter _).map _).sum_eq, ((h.filter _).map _).sum_eq⟩

/-- C12 (amended): for an existing wallet `W` with balance `B0` and a list of valid requests
on `W` whose withdrawal amounts total at most `B0` and whose deposit amounts added to `B0`
stay below `2^63`, serving the requests one after another in any permutation of the list,
with no store failure during the run, answers every request with `200` and ends with
committed balance `B0 + (sum of deposit amounts) - (sum of withdrawal amounts)`. -/
theorem serialization_order_independent (db : DB) (W : UUID) (w : Wallet)
    (reqs : List WalletRequest) (steps : List (Env × WalletRequest))
    (hw : db.findWallet W = some w)
    (hreq : ∀ r ∈ reqs, r.Validate = none ∧ r.WalletID = W)
    (hwd : withdrawTotal reqs ≤ w.Balance.val)
    (hdep : w.Balance.val + depositTotal reqs < 9223372036854775808)
    (hperm : (steps.map (fun p => p.2)).Perm reqs)
    (hquiet : NoStoreFailureRun db steps) :
    (∀ r ∈ runResponses db steps, r.status = 200) ∧
    ∃ b, GetWalletBalanceSimple false (runRequests db steps) W = .ok b ∧
      b.val = w.Balance.val + depositTotal reqs - withdrawTotal reqs := by
  obtain ⟨hd, hwt⟩ := totals_perm _ _ hperm
  have hreq' : ∀ r ∈ steps.map (fun p => p.2), r.Validate = none ∧ r.WalletID = W :=
    fun r hr => hreq r (hperm.mem_iff.1 hr)
  obtain ⟨hall, w', hfw, hbal⟩ := runRequests_serial steps db W w hw hreq'
    (by rw [hwt]; exact hwd) (by rw [hd]; exact hdep) hquiet
  refine ⟨hall, w'.Balance, GetWalletBalanceSimple_of_find _ _ _ hfw, ?_⟩
  rw [hbal, hd, hwt]

/-- C12 at the wallet of scenario 2 (balance 700) and the list of a deposit of 10 and a
withdrawal of 5, served in the other order: both are answered with 200 and the balance
ends at 705. -/
theorem serialization_order_independent_witness :
    (∀ r ∈ runResponses scenarioTables
        [(quietEnv 3, ⟨7, Withdraw, 5⟩), (quietEnv 4, ⟨7, Deposit, 10⟩)], r.status = 200) ∧
    ∃ b, GetWalletBalanceSimple false (runRequests scenarioTables
        [(quietEnv 3, ⟨7, Withdraw, 5⟩), (quietEnv 4, ⟨7, Deposit, 10⟩)]) 7 = .ok b ∧
      b.val = (700 : I64).val + depositTotal [⟨7, Deposit, 10⟩, ⟨7, Withdraw, 5⟩]
        - withdrawTotal [⟨7, Deposit, 10⟩, ⟨7, Withdraw, 5⟩] :=
  serialization_order_independent scenarioTables 7 ⟨7, 700, 0, 0⟩
    [⟨7, Deposit, 10⟩, ⟨7, Withdraw, 5⟩]
    [(quietEnv 3, ⟨7, Withdraw, 5⟩), (quietEnv 4, ⟨7, Deposit, 10⟩)]
    (by decide) (by decide) (by decide) (by decide) (List.Perm.swap _ _ _) (by decide)

/-- C12 as stated fails: on the wallet of scenario 2 (balance 700) the one-element list of a
valid deposit of 10 is not answered with success when `tx.Commit()` fails, and the balance
stays 700 instead of 710. -/
theorem serialization_counterexample :
    scenarioTables.findWallet 7 = some ⟨7, 700, 0, 0⟩ ∧
    (⟨7, Deposit, 10⟩ : WalletRequest).Validate = none ∧
    runResponses scenarioTables [({ quietEnv 3 with commitFails := true }, ⟨7, Deposit, 10⟩)]
      = [.error "Internal server error" StatusInternalServerError] ∧
    handleGetWalletBalance false
        (runRequests scenarioTables
          [({ quietEnv 3 with commitFails := true }, ⟨7, Deposit, 10⟩)]) 7
      = .json ⟨7, 700⟩ := by
  decide

/-! ## The wallet field of the request body -/

theorem I64.ofInt?_val (a : I64) : I64.ofInt? a.val = some a := by
  unfold I64.ofInt?
  rw [dif_pos a.inRange]

theorem decode_taggedBody (parseUUID : String → Option UUID) (id : String) (W : UUID)
    (A : I64) (hid : parseUUID id = some W) :
    decodeWalletRequest parseUUID (taggedBody id A.val)
      = some { WalletID := W, OperationType := Deposit, Amount := A } := by
  have h1 : foldName "valletId" = foldName "valletId" := rfl
  have h2 : foldName "operationType" ≠ foldName "valletId" := by decide
  have h3 : foldName "amount" ≠ foldName "valletId" := by decide
  have h4 : foldName "amount" ≠ foldName "operationType" := by decide
  simp [decodeWalletRequest, taggedBody, decodeMember, h2, h3, h4, hid, I64.ofInt?_val,
    WalletRequest.zero, Deposit]

theorem decode_specBody (parseUUID : String → Option UUID) (id : String) (A : I64) :
    decodeWalletRequest parseUUID (specBody id A.val)
      = some { WalletID := uuidNil, OperationType := Deposit, Amount := A } := by
  have h0 : foldName "walletId" ≠ foldName "valletId" := by decide
  have h0' : foldName "walletId" ≠ foldName "operationType" := by decide
  have h0'' : foldName "walletId" ≠ foldName "amount" := by decide
  have h2 : foldName "operationType" ≠ foldName "valletId" := by decide
  have h3 : foldName "amount" ≠ foldName "valletId" := by decide
  have h4 : foldName "amount" ≠ foldName "operationType" := by decide
  simp [decodeWalletRequest, specBody, decodeMember, h0, h0', h0'', h2, h3, h4,
    I64.ofInt?_val, WalletRequest.zero, Deposit]

theorem handleWalletOperation_deposit_ok (env : Env) (db : DB) (req : WalletRequest)
    (hvalid : req.Validate = none) (hop : req.OperationType = Deposit)
    (hok : env.NoStoreFailure db) :
    (handleWalletOperation env db req).1
      = .json { WalletID := req.WalletID,
                Balance := ((db.balanceOf req.WalletID).getD 0).add req.Amount } ∧
    (handleWalletOperation env db req).2.balanceOf req.WalletID
      = some (((db.balanceOf req.WalletID).getD 0).add req.Amount) := by
  cases hf : db.findWallet req.WalletID with
  | some w =>
    obtain ⟨hresp, hfind⟩ := handleWalletOperation_ok_found env db req w _ hf hvalid hok
      (applyOperation_deposit w.Balance req hop)
    have hbal : db.balanceOf req.WalletID = some w.Balance := by
      simp only [DB.balanceOf, hf, Option.map_some']
    rw [hbal, Option.getD_some]
    refine ⟨hresp, ?_⟩
    simp only [DB.balanceOf, hfind, Option.map_some']
  | none =>
    obtain ⟨hb, hs, hcr, hu, hi, hc, hfresh⟩ := hok
    have hne : Deposit ≠ Withdraw := by decide
    have hlen := valid_opType_length req hvalid
    have hstep : handleWalletOperation env db req
        = applyAndCommit env db { db with wallets := db.wallets ++ [newWallet env req.WalletID] }
            (newWallet env req.WalletID) req := by
      simp [handleWalletOperation, hvalid, Begin, hb, GetWallet, hs, hf, hop, hne,
        CreateWallet, hcr, newWallet]
    have hfind : ({ db with wallets := db.wallets ++ [newWallet env req.WalletID] } : DB).findWallet
        req.WalletID = some (newWallet env req.WalletID) := by
      simp only [DB.findWallet] at hf ⊢
      exact find?_append_singleton_of_none db.wallets (newWallet env req.WalletID) hf
    have hex : (({ db with wallets := db.wallets ++ [newWallet env req.WalletID] } : DB).findWallet
        (newWallet env req.WalletID).ID).isSome = true := by
      show (({ db with wallets := db.wallets ++ [newWallet env req.WalletID] } : DB).findWallet
        req.WalletID).isSome = true
      rw [hfind]; rfl
    have hbal : db.balanceOf req.WalletID = none := by
      simp only [DB.balanceOf, hf, Option.map_none']
    have hrun := applyAndCommit_ok env db
      { db with wallets := db.wallets ++ [newWallet env req.WalletID] }
      (newWallet env req.WalletID) req _
      (applyOperation_deposit (newWallet env req.WalletID).Balance req hop)
      hu hi hc hfresh hex hlen
    have hcommitted := committedTables_findWallet env
      { db with wallets := db.wallets ++ [newWallet env req.WalletID] } req.WalletID
      ((newWallet env req.WalletID).Balance.add req.Amount) req
      (newWallet env req.WalletID) hfind
    rw [hbal, Option.getD_none, hstep, hrun]
    refine ⟨rfl, ?_⟩
    show (committedTables env _ req.WalletID _ req).balanceOf req.WalletID = _
    simp only [DB.balanceOf, hcommitted, Option.map_some']
    rfl

/-- C15 (amended): the operation request names its wallet by the JSON field `valletId`. For
every non-nil identifier `W` and amount `A > 0` the body
`{"valletId": W, "operationType": "DEPOSIT", "amount": A}` decodes into the request
`(W, DEPOSIT, A)`, which passes `Validate`, and with no store failure the deposit is
applied to wallet `W` (status 200, one audit row for `W`, balance raised by `A` in signed
64-bit arithmetic). The body `{"walletId": W, "operationType": "DEPOSIT", "amount": A}`
decodes with the nil identifier and is answered with `400` and nothing committed. -/
theorem request_names_wallet_by_valletId (parseUUID : String → Option UUID)
    (errorText : String) (env : Env) (db : DB) (id : String) (W : UUID) (A : I64)
    (hid : parseUUID id = some W) (hW : W ≠ uuidNil) (hA : 0 < A.val) :
    decodeWalletRequest parseUUID (taggedBody id A.val)
      = some { WalletID := W, OperationType := Deposit, Amount := A } ∧
    (WalletRequest.mk W Deposit A).Validate = none ∧
    (env.NoStoreFailure db →
      (handleWalletOperationBody parseUUID errorText env db (taggedBody id A.val)).1
        = .json { WalletID := W, Balance := ((db.balanceOf W).getD 0).add A } ∧
      (handleWalletOperationBody parseUUID errorText env db (taggedBody id A.val)).2.balanceOf W
        = some (((db.balanceOf W).getD 0).add A) ∧
      (handleWalletOperationBody parseUUID errorText env db (taggedBody id A.val)).2.auditTrail W
        = db.auditTrail W ++ [auditRecord env (WalletRequest.mk W Deposit A)]) ∧
    decodeWalletRequest parseUUID (specBody id A.val)
      = some { WalletID := uuidNil, OperationType := Deposit, Amount := A } ∧
    handleWalletOperationBody parseUUID errorText env db (specBody id A.val)
      = (.error "Validation error: walletId cannot be empty" StatusBadRequest, db) := by
  have hdec := decode_taggedBody parseUUID id W A hid
  have hdec' := decode_specBody parseUUID id A
  have hvalid : (WalletRequest.mk W Deposit A).Validate = none :=
    (Validate_eq_none_iff _).2 ⟨hW, hA, Or.inl rfl⟩
  refine ⟨hdec, hvalid, ?_, hdec', ?_⟩
  · intro hok
    have hbody : handleWalletOperationBody parseUUID errorText env db (taggedBody id A.val)
        = handleWalletOperation env db (WalletRequest.mk W Deposit A) := by
      simp only [handleWalletOperationBody, hdec]
    obtain ⟨hresp, hbal⟩ :=
      handleWalletOperation_deposit_ok env db (WalletRequest.mk W Deposit A) hvalid rfl hok
    have h200 : (handleWalletOperation env db (WalletRequest.mk W Deposit A)).1.status
        = 200 := by rw [hresp]; rfl
    rw [hbody]
    exact ⟨hresp, hbal, (handleWalletOperation_committed env db _ h200).2.2.1⟩
  · simp only [handleWalletOperationBody, hdec']
    have hinv : (WalletRequest.mk uuidNil Deposit A).Validate = some .emptyWalletID := by
      simp [WalletRequest.Validate]
    rw [handleWalletOperation_invalid env db _ _ hinv]
    rfl

/-- C15 at the deposit of 1000 of scenario 1 sent with the member `valletId`: the wallet 7
is created with balance 1000. -/
theorem request_names_wallet_by_valletId_witness :
    (handleWalletOperationBody parseSeven "" (quietEnv 1) DB.empty
        (taggedBody "00000000-0000-0000-0000-000000000007" 1000)).1
      = .json ⟨7, 1000⟩ :=
  ((request_names_wallet_by_valletId parseSeven "" (quietEnv 1) DB.empty
      "00000000-0000-0000-0000-000000000007" 7 1000 (by decide) (by decide) (by decide)).2.2.1
    (by decide)).1

/-- C15 as stated fails: the body
`{"walletId": "00000000-0000-0000-0000-000000000007", "operationType": "DEPOSIT",
"amount": 1000}` decodes into a request whose `WalletID` is the nil UUID, not 7; `Validate`
rejects it and the handler answers `400` without creating wallet 7. -/
theorem request_walletId_counterexample :
    parseSeven "00000000-0000-0000-0000-000000000007" = some 7 ∧
    decodeWalletRequest parseSeven (specBody "00000000-0000-0000-0000-000000000007" 1000)
      = some ⟨uuidNil, Deposit, 1000⟩ ∧
    (WalletRequest.mk uuidNil Deposit 1000).Validate = some .emptyWalletID ∧
    handleWalletOperationBody parseSeven "" (quietEnv 1) DB.empty
        (specBody "00000000-0000-0000-0000-000000000007" 1000)
      = (.error "Validation error: walletId cannot be empty" StatusBadRequest, DB.empty) := by
  decide

/-! ## Balances when no deposit overflows -/

theorem depositFits_of_find (db : DB) (req : WalletRequest) (w : Wallet)
    (hfit : DepositFits db req) (hf : db.findWallet req.WalletID = some w)
    (hop : req.OperationType = Deposit) :
    w.Balance.val + req.Amount.val < 9223372036854775808 := by
  have h := hfit hop
  simp only [DB.balanceOf, hf, Option.map_some', Option.getD_some] at h
  exact h

theorem handleWalletOperation_nonNegative_of_fits (env : Env) (db : DB) (req : WalletRequest)
    (hnn : db.NonNegative) (hfit : DepositFits db req) :
    (handleWalletOperation env db req).2.NonNegative :=
  handleWalletOperation_nonNegative env db req hnn
    (fun w hf hop => depositFits_of_find db req w hfit hf hop)

theorem runRequests_nonNegative (steps : List (Env × WalletRequest)) (db : DB)
    (hnn : db.NonNegative) (hno : NoDepositOverflowRun db steps) (k : Nat) :
    (runRequests db (steps.take k)).NonNegative := by
  induction steps generalizing db k with
  | nil => simpa [runRequests] using hnn
  | cons a rest ih =>
    obtain ⟨env, req⟩ := a
    obtain ⟨hfit, hrest⟩ := hno
    cases k with
    | zero => simpa [runRequests] using hnn
    | succ k =>
      show (runRequests (handleWalletOperation env db req).2 (rest.take k)).NonNegative
      exact ih _ (handleWalletOperation_nonNegative_of_fits env db req hnn hfit) hrest k

theorem applyOperation_ledger_exact (b nb : I64) (req : WalletRequest)
    (trail : List Transaction) (t : Transaction) (hvalid : req.Validate = none)
    (hb : b.val = ledgerSum trail) (hty : t.OpType = req.OperationType)
    (ham : t.Amount = req.Amount)
    (hfit : req.OperationType = Deposit →
      b.val + req.Amount.val < 9223372036854775808)
    (h : applyOperation b req = some nb) : nb.val = ledgerSum (trail ++ [t]) := by
  obtain ⟨_, hpos, hop⟩ := (Validate_eq_none_iff req).1 hvalid
  have hbr := b.inRange
  rcases hop with hop | hop
  · have hop' : req.OperationType = Deposit := hop
    rw [applyOperation_deposit b req hop'] at h
    rw [ledgerSum_append_deposit trail t (hty.trans hop'), ham]
    have hlt := hfit hop'
    have hval : (b.add req.Amount).val = b.val + req.Amount.val := by
      simp only [I64.add]
      apply I64.wrap_val_of_inRange
      omega
    cases h
    omega
  · have hop' : req.OperationType = Withdraw := hop
    rw [applyOperation_withdraw b req hop'] at h
    rw [ledgerSum_append_withdraw trail t (hty.trans hop'), ham]
    by_cases hlt : b.val < req.Amount.val
    · rw [if_pos hlt] at h; cases h
    · rw [if_neg hlt] at h
      have hval := I64.sub_val_of_le b req.Amount (by omega) (by omega)
      cases h
      omega

/-- One step keeps every committed balance exactly equal to the sum over the audit trail of
its wallet when the deposit of the request, if it is one, fits the signed 64-bit range. -/
theorem handleWalletOperation_ledgerExact (env : Env) (db : DB) (req : WalletRequest)
    (hc : db.Consistent) (hl : db.LedgerExact) (hfit : DepositFits db req) :
    (handleWalletOperation env db req).2.LedgerExact := by
  rcases handleWalletOperation_cases env db req with
    ⟨_, hsame⟩ | ⟨hvalid, tx, wlt, nb, hwhere, happly, _, _, hrun⟩
  · rw [hsame]; exact hl
  · rw [hrun]
    have hbase : tx.LedgerExact ∧
        wlt.Balance.val = ledgerSum (tx.auditTrail req.WalletID) ∧
        (req.OperationType = Deposit →
          wlt.Balance.val + req.Amount.val < 9223372036854775808) := by
      rcases hwhere with ⟨hf, htx⟩ | ⟨hnone, _, hwlt, htx⟩
      · subst htx
        have h := hl wlt (DB.mem_of_findWallet hf)
        rw [DB.findWallet_ID hf] at h
        exact ⟨hl, h, fun hop => depositFits_of_find tx req wlt hfit hf hop⟩
      · subst htx
        have htrail : db.auditTrail req.WalletID = [] :=
          auditTrail_eq_nil_of_unknown db req.WalletID hc hnone
        have hzero : wlt.Balance.val = 0 := by rw [hwlt]; exact I64.zero_val
        have hsum : wlt.Balance.val = ledgerSum (db.auditTrail req.WalletID) := by
          rw [htrail, hzero]; rfl
        refine ⟨?_, hsum, ?_⟩
        · intro v hv
          have hv' : v ∈ db.wallets ++ [wlt] := hv
          rw [List.mem_append, List.mem_singleton] at hv'
          rcases hv' with h | h
          · exact hl v h
          · rw [h]
            have hid : wlt.ID = req.WalletID := by rw [hwlt]; rfl
            rw [hid]
            exact hsum
        · intro _
          have := req.Amount.inRange
          omega
    obtain ⟨htx, hwb, hfit'⟩ := hbase
    have hnb := applyOperation_ledger_exact wlt.Balance nb req (tx.auditTrail req.WalletID)
      { ID := env.transactionID, WalletID := req.WalletID, OpType := req.OperationType,
        Amount := req.Amount, Timestamp := env.recordTime } hvalid hwb rfl rfl hfit' happly
    intro v hv
    have hv' : v ∈ tx.wallets.map (updateRow env req.WalletID nb) := hv
    rw [List.mem_map] at hv'
    obtain ⟨u, hu, huv⟩ := hv'
    by_cases hid : u.ID = req.WalletID
    · have hvid : v.ID = req.WalletID := by rw [← huv, updateRow_ID]; exact hid
      have hvb : v.Balance = nb := by rw [← huv]; simp [updateRow, hid]
      rw [hvid, hvb, auditTrail_committedTables_same]
      exact hnb
    · have hvu : v = u := by rw [← huv]; simp [updateRow, hid]
      rw [hvu, auditTrail_committedTables_other env tx req.WalletID u.ID nb req
        (fun h => hid h.symm)]
      exact htx u hu

theorem runRequests_ledgerExact (steps : List (Env × WalletRequest)) (db : DB)
    (hc : db.Consistent) (hl : db.LedgerExact) (hno : NoDepositOverflowRun db steps) :
    (runRequests db steps).LedgerExact := by
  induction steps generalizing db with
  | nil => exact hl
  | cons a rest ih =>
    obtain ⟨env, req⟩ := a
    obtain ⟨hfit, hrest⟩ := hno
    exact ih _ (handleWalletOperation_consistent env db req hc)
      (handleWalletOperation_ledgerExact env db req hc hl hfit) hrest

theorem DB.empty_nonNegative : DB.empty.NonNegative := by
  intro w hw; cases hw

theorem DB.empty_ledgerExact : DB.empty.LedgerExact := by
  intro w hw; cases hw

theorem GetWalletBalanceSimple_ok (db : DB) (walletID : UUID) (b : I64)
    (h : GetWalletBalanceSimple false db walletID = .ok b) :
    ∃ w, db.findWallet walletID = some w ∧ w ∈ db.wallets ∧ w.ID = walletID ∧
      w.Balance = b := by
  cases hf : db.findWallet walletID with
  | none => simp [GetWalletBalanceSimple, hf] at h
  | some w =>
    rw [GetWalletBalanceSimple_of_find db walletID w hf] at h
    exact ⟨w, rfl, DB.mem_of_findWallet hf, DB.findWallet_ID hf, Except.ok.inj h⟩

end WalletService
